import Mathlib

/-!
A shallow embedding of the speech-queue engine (src/say.ts) and the
listening-loop coordinator (the hear coordinator document of
src/punctuate.ts, together with the mute flag module) of the hear-say
repository.

Modelling conventions:
* JavaScript is single threaded; `async` functions run synchronously up to
  an `await`.  Each suspension point of the drain coroutine
  (`processQueue`'s `await speakOne(...)` and `await waitForGap()`) is
  reified as a `Frame`.  External events (process exits, timer firings,
  public API calls) drive a step function; each step runs the synchronous
  JavaScript code (including microtask continuations) to completion.
* Promise resolvers are identified by completion ids (`cid`), spawned
  processes by process ids (`pid`), gap races by `gid`.  Fresh ids come
  from counters in the state.
* Observable actions (process launches and kills, listener emissions,
  completion resolutions, transcript callbacks) are appended to an event
  log.  `enq`/`serviced` events additionally mark the creation of a
  completion handle and the moment an utterance is handed to `speakOne`.
* `setTimeout` timers carry their absolute deadline; a timer event fires
  exactly at its deadline.  Timers for the gap race are never cleared in
  the source, so a late firing on an already settled race is a no-op.
-/

/-- The JavaScript regular expression class `\w`: ASCII letters, digits and
underscore. -/
def isWordChar (c : Char) : Bool :=
  c.isAlphanum || c == '_'

/-- Test `\w` on the character of `l` at index `i`; out-of-range indices
behave like the empty string (`newText[i] || ''` in the source), i.e. they
are not word characters. -/
def wordAt (l : List Char) (i : Nat) : Bool :=
  match l.get? i with
  | some c => isWordChar c
  | none => false

/-- Length of the longest common character prefix (first while loop of
`reduceRepetition`). -/
def commonPrefixLen : List Char → List Char → Nat
  | a :: as, b :: bs => if a == b then commonPrefixLen as bs + 1 else 0
  | _, _ => 0

/-- Snap the prefix length back to a word boundary: while the characters on
both sides of the cut are word characters, move the cut left. -/
def snapPrefixBack (l : List Char) : Nat → Nat
  | 0 => 0
  | p + 1 => if wordAt l p && wordAt l (p + 1) then snapPrefixBack l p else p + 1

/-- Number of leading non-word characters of a character list (used to
extend the prefix over trailing punctuation and whitespace). -/
def leadNonWord : List Char → Nat
  | [] => 0
  | c :: cs => if !isWordChar c then leadNonWord cs + 1 else 0

/-- Length of the longest common prefix of two lists, bounded by the first
argument (the suffix while loop of `reduceRepetition`, applied to reversed
texts with bound `maxSuffix`). -/
def commonPrefixLenUpTo : Nat → List Char → List Char → Nat
  | m + 1, a :: as, b :: bs => if a == b then commonPrefixLenUpTo m as bs + 1 else 0
  | _, _, _ => 0

/-- Snap the suffix length back to a word boundary.  `n` is the length of
the new text; index `n - s - 1` below the start of the list behaves like
the empty string. -/
def snapSuffixBack (l : List Char) (n : Nat) : Nat → Nat
  | 0 => 0
  | s + 1 =>
    if wordAt l (n - (s + 1)) && (decide (s + 1 < n) && wordAt l (n - (s + 1) - 1)) then
      snapSuffixBack l n s
    else s + 1

/-- Count of leading non-word characters, bounded by the first argument
(used to extend the suffix over leading punctuation, applied to the
reversed text). -/
def leadNonWordUpTo : Nat → List Char → Nat
  | m + 1, c :: cs => if !isWordChar c then leadNonWordUpTo m cs + 1 else 0
  | _, _ => 0

/-- JavaScript `String.prototype.trim` on a character list (ASCII
whitespace). -/
def trimChars (l : List Char) : List Char :=
  ((l.dropWhile Char.isWhitespace).reverse.dropWhile Char.isWhitespace).reverse

/-- `reduceRepetition(newText, lastText)` of src/say.ts: strip the common
prefix and (non-overlapping) suffix of `newText` relative to `lastText`,
snapped outward to word boundaries, and return the trimmed middle; `none`
when nothing remains (exact duplicate, to be skipped). -/
def reduceRepetition (newText lastText : String) : Option String :=
  let n := newText.toList
  let l := lastText.toList
  let nl := n.length
  let p0 := commonPrefixLen n l
  let p1 := snapPrefixBack n p0
  let p := p1 + leadNonWord (n.drop p1)
  let maxSuffix := min (nl - p) (l.length - p)
  let s0 := commonPrefixLenUpTo maxSuffix n.reverse l.reverse
  let s1 := snapSuffixBack n nl s0
  let sfx := s1 + leadNonWordUpTo ((nl - p) - s1) (n.reverse.drop s1)
  let result := trimChars ((n.take (nl - sfx)).drop p)
  if result == [] then none else some (String.mk result)

/-- Count the maximal non-whitespace runs of a character list; the flag
records whether the previous character was inside a word. -/
def countWords : List Char → Bool → Nat
  | [], _ => 0
  | c :: cs, inw =>
    if c.isWhitespace then countWords cs false
    else (if inw then 0 else 1) + countWords cs true

/-- Number of whitespace-separated words of a text
(`text.split(/\s+/).filter(w => w.length > 0).length`, i.e. the number of
maximal non-whitespace runs). -/
def wordCount (t : String) : Nat :=
  countWords t.toList false

/-- Default of the MIN_RATE environment variable. -/
def MIN_RATE : Nat := 200

/-- Default of the MAX_RATE environment variable. -/
def MAX_RATE : Nat := 300

/-- Default of the WORD_QUEUE_PLATEAU environment variable. -/
def WORD_THRESHOLD : Nat := 30

/-- A queued utterance: its text together with the id of the completion
handle resolved when it has been serviced. -/
structure Entry where
  cid : Nat
  text : String
deriving DecidableEq, Repr

/-- The pending polite-interrupt slot: an entry plus the queue-clear flag. -/
structure PendInt where
  cid : Nat
  text : String
  clear : Bool
deriving DecidableEq, Repr

/-- `calculateRate` of src/say.ts at the default configuration: the rate
scales linearly from MIN_RATE to MAX_RATE with the total outstanding word
count, saturating at WORD_THRESHOLD words.  `Math.round` is modelled as
exact rational rounding; at the default configuration the scaled value is
never half way between two integers, so this agrees with the source's
floating point computation. -/
def calculateRate (currentText : String) (queue : List Entry) : Nat :=
  let wc := wordCount currentText + (queue.map (fun e => wordCount e.text)).sum
  MIN_RATE + (2 * min wc WORD_THRESHOLD * (MAX_RATE - MIN_RATE) + WORD_THRESHOLD) /
    (2 * WORD_THRESHOLD)

/-- Observable events of an execution, in order of occurrence. -/
inductive Ev where
  /-- a say request created a completion handle for this text -/
  | enq (cid : Nat) (text : String)
  /-- the speech-started listeners fired -/
  | startEv
  /-- the speech-finished listeners fired -/
  | finishEv
  /-- the gap-started listeners fired -/
  | gapStartEv
  /-- the gap-ended listeners fired -/
  | gapEndEv
  /-- the drain handed this entry to speakOne -/
  | serviced (cid : Nat) (text : String)
  /-- speakOne spawned an output process with the shaped text and rate -/
  | launch (pid cid : Nat) (text : String) (rate : Nat)
  /-- an entry's completion resolver was invoked -/
  | resolve (cid : Nat)
  /-- killProcess was invoked on an output process -/
  | kill (pid : Nat)
  /-- the listening coordinator spawned an input process -/
  | hearSpawn (pid : Nat)
  /-- killProcess was invoked on an input process -/
  | hearKill (pid : Nat)
  /-- the consumer callback fired with a streaming (non-final) line -/
  | lineCb (text : String)
  /-- the consumer callback fired with a final accumulated utterance -/
  | finalCb (text : String)
deriving DecidableEq, Repr

/-- A suspension of the drain coroutine `processQueue`. -/
inductive Frame where
  /-- suspended in `await speakOne`: waiting for the exit of `pid`, after
  which the entry `cid` is resolved and the loop continues if the
  generation still matches -/
  | speak (gen pid cid : Nat)
  /-- suspended in `await waitForGap`: waiting for the race `gid` between
  the gap timer and the completion signal -/
  | gap (gen gid : Nat)
deriving DecidableEq, Repr

/-- The module-level mutable state of src/say.ts. -/
structure SayState where
  activeProcess : Option Nat
  lastSpoken : String
  speaking : Bool
  repeatReductionEnabled : Bool
  gapDuration : Nat
  gapResolver : Option Nat
  queueGeneration : Nat
  speechQueue : List Entry
  processingQueue : Bool
  latestEntry : Option Nat
  pendingInterrupt : Option PendInt
deriving DecidableEq, Repr

/-- The module-level mutable state of the hear coordinator (the second
document of src/punctuate.ts) together with the mute flag of the mute
module. -/
structure HearState where
  hActive : Option Nat
  hasCallback : Bool
  silenceDeadline : Option Nat
  lastTranscribedText : String
  timeoutDuration : Nat
  shouldContinueListening : Bool
  inGap : Bool
  gapListenersRegistered : Bool
  muted : Bool
deriving DecidableEq, Repr

/-- The whole system: module states, suspended coroutine frames, armed gap
timers (gid, absolute deadline), the sets of spawned and not yet exited
processes, the clock, fresh-id counters, and the event log. -/
structure Sys where
  say : SayState
  hear : HearState
  frames : List Frame
  gapTimers : List (Nat × Nat)
  sayLive : List Nat
  hearLive : List Nat
  externalGapStartListeners : Nat
  time : Nat
  nextCid : Nat
  nextPid : Nat
  nextGid : Nat
  log : List Ev
deriving DecidableEq, Repr

/-- Append an observable event to the log. -/
def pushLog (s : Sys) (e : Ev) : Sys :=
  { s with log := s.log ++ [e] }

/-- Number of registered gap-start listeners: the hear coordinator's
listener (when `hear()` has registered it) plus any other subscribers. -/
def gapStartCount (s : Sys) : Nat :=
  s.externalGapStartListeners + (if s.hear.gapListenersRegistered then 1 else 0)

/-- Body shared by the hear coordinator's speech-started listener: if an
input process is active, stop auto-restarting, kill it, drop the handle,
clear the silence timer and the accumulated transcript. -/
def hearStopActive (s : Sys) : Sys :=
  match s.hear.hActive with
  | some p =>
    let s1 := pushLog s (.hearKill p)
    { s1 with
      hear := { s1.hear with
        shouldContinueListening := false
        hActive := none
        silenceDeadline := none
        lastTranscribedText := "" } }
  | none => s

/-- `startListening()` of the hear coordinator: clear the transcript, set
the continue flag, spawn a fresh input process and arm the silence
timer.  (The phonetic cache clearing is an external collaborator.) -/
def hearStartListening (s : Sys) : Sys :=
  let pid := s.nextPid
  let s1 := pushLog s (.hearSpawn pid)
  { s1 with
    hear := { s1.hear with
      lastTranscribedText := ""
      shouldContinueListening := true
      hActive := some pid
      silenceDeadline := some (s1.time + s1.hear.timeoutDuration) }
    hearLive := s1.hearLive ++ [pid]
    nextPid := s1.nextPid + 1 }

/-- `emitStart()`: fire the speech-started listeners.  The hear
coordinator's listener (registered at module load) kills any active input
process. -/
def emitStart (s : Sys) : Sys :=
  hearStopActive (pushLog s .startEv)

/-- `emitFinish()`: fire the speech-finished listeners.  The hear
coordinator's listener clears the transcript and the gap flag and restarts
listening when a consumer callback is waiting and no input process is
active. -/
def emitFinish (s : Sys) : Sys :=
  let s1 := pushLog s .finishEv
  let s2 := { s1 with hear := { s1.hear with lastTranscribedText := "", inGap := false } }
  if s2.hear.hasCallback && s2.hear.hActive.isNone then hearStartListening s2 else s2

/-- `emitGapStart()`: fire the gap-started listeners.  The hear
coordinator's listener (registered once `hear()` has been called) marks
the gap, clears the transcript and starts listening when a consumer
callback is waiting and no input process is active. -/
def emitGapStart (s : Sys) : Sys :=
  let s1 := pushLog s .gapStartEv
  if s1.hear.gapListenersRegistered then
    let s2 := { s1 with hear := { s1.hear with inGap := true, lastTranscribedText := "" } }
    if s2.hear.hasCallback && s2.hear.hActive.isNone then hearStartListening s2 else s2
  else s1

/-- `emitGapEnd()`: clear the gap completion resolver and fire the
gap-ended listeners.  The hear coordinator's listener leaves the gap and
kills any active input process without auto-restart. -/
def emitGapEnd (s : Sys) : Sys :=
  let s0 := { s with say := { s.say with gapResolver := none } }
  let s1 := pushLog s0 .gapEndEv
  if s1.hear.gapListenersRegistered then
    let s2 := { s1 with hear := { s1.hear with inGap := false } }
    match s2.hear.hActive with
    | some p =>
      let s3 := pushLog s2 (.hearKill p)
      { s3 with
        hear := { s3.hear with
          shouldContinueListening := false
          hActive := none
          silenceDeadline := none
          lastTranscribedText := "" } }
    | none => s2
  else s1

/-- Invoke the resolvers of a list of entries in order (used when a queue
is cleared). -/
def resolveEntries (s : Sys) (es : List Entry) : Sys :=
  es.foldl (fun acc e => pushLog acc (.resolve e.cid)) s

/-- The `finally` block of `processQueue`: cleanup only when this
coroutine is still the current generation. -/
def finishUp (gen : Nat) (s : Sys) : Sys :=
  if s.say.queueGeneration == gen then
    emitFinish { s with say := { s.say with speaking := false, processingQueue := false } }
  else s

/-- Result of running one synchronous portion of the drain loop: either
the coroutine suspended (or was abandoned as stale) leaving this state, or
control returns to the top of the while loop. -/
inductive Res where
  | susp (s : Sys)
  | next (s : Sys)
deriving DecidableEq, Repr

/-- The state carried by a loop-portion result. -/
def Res.sys : Res → Sys
  | .susp s => s
  | .next s => s

/-- The tail of `speakOne` when a process is spawned: record the original
text as last spoken, compute the rate from the shaped text plus the
remaining queue, spawn, and suspend awaiting the exit. -/
def launchSay (gen cid : Nat) (originalText tts : String) (s : Sys) : Sys :=
  let s1 := { s with say := { s.say with lastSpoken := originalText } }
  let rate := calculateRate tts s1.say.speechQueue
  let pid := s1.nextPid
  let s2 := pushLog s1 (.launch pid cid tts rate)
  { s2 with
    say := { s2.say with activeProcess := some pid }
    sayLive := s2.sayLive ++ [pid]
    frames := s2.frames ++ [.speak gen pid cid]
    nextPid := s2.nextPid + 1 }

/-- The code after `await speakOne` returns inside the drain loop: resolve
the entry, stop if stale, otherwise run `waitForGap` when more work
remains (collapsing to nothing when the duration is zero or nobody
subscribes to gap-started, else opening the gap window and suspending on
the race). -/
def afterSpeakR (gen cid : Nat) (s : Sys) : Res :=
  let s1 := pushLog s (.resolve cid)
  if !(s1.say.queueGeneration == gen) then .susp s1
  else if !s1.say.speechQueue.isEmpty || s1.say.pendingInterrupt.isSome then
    if s1.say.gapDuration == 0 || gapStartCount s1 == 0 then .next s1
    else
      let s2 := emitGapStart s1
      let gid := s2.nextGid
      let s3 := { s2 with
        say := { s2.say with gapResolver := some gid }
        gapTimers := s2.gapTimers ++ [(gid, s2.time + s2.say.gapDuration)]
        frames := s2.frames ++ [.gap gen gid]
        nextGid := s2.nextGid + 1 }
      .susp s3
  else .next s1

/-- `speakOne(text)` for the entry `cid`: with repetition reduction
enabled and a previous utterance present, either skip entirely (exact
duplicate: record the text as last spoken and resolve synchronously) or
launch the reduced text; otherwise launch the text as given. -/
def speakStepR (gen cid : Nat) (text : String) (s : Sys) : Res :=
  let s1 := pushLog s (.serviced cid text)
  if s1.say.repeatReductionEnabled && !(s1.say.lastSpoken == "") then
    match reduceRepetition text s1.say.lastSpoken with
    | none => afterSpeakR gen cid { s1 with say := { s1.say with lastSpoken := text } }
    | some tts => .susp (launchSay gen cid text tts s1)
  else .susp (launchSay gen cid text text s1)

/-- The while loop of `processQueue`, run synchronously from the top of
the loop until it suspends or finishes.  The fuel is an upper bound on the
number of iterations; each iteration consumes a queue item or the pending
interrupt and nothing is re-queued synchronously, so any fuel above the
queue length plus one suffices. -/
def runLoop : Nat → Nat → Sys → Sys
  | 0, _, s => s
  | fuel + 1, gen, s =>
    if s.say.speechQueue.isEmpty && !s.say.pendingInterrupt.isSome then
      finishUp gen s
    else if !(s.say.queueGeneration == gen) then s
    else
      match s.say.pendingInterrupt with
      | some pi =>
        let s1 := { s with say := { s.say with pendingInterrupt := none } }
        let s2 :=
          if pi.clear then
            let sa := resolveEntries s1 s1.say.speechQueue
            { sa with say := { sa.say with speechQueue := [], latestEntry := none } }
          else s1
        match speakStepR gen pi.cid pi.text s2 with
        | .susp s3 => s3
        | .next s3 => runLoop fuel gen s3
      | none =>
        match s.say.speechQueue with
        | [] => s
        | e :: rest =>
          let s1 := { s with
            say := { s.say with
              speechQueue := rest
              latestEntry := if s.say.latestEntry == some e.cid then none
                else s.say.latestEntry } }
          match speakStepR gen e.cid e.text s1 with
          | .susp s3 => s3
          | .next s3 => runLoop fuel gen s3

/-- Fuel that always suffices for one synchronous run of the drain loop. -/
def sayFuel (s : Sys) : Nat := s.say.speechQueue.length + 2

/-- `processQueue()`: no-op when a drain is already running; otherwise set
the flags, take a fresh generation, fire speech-started and run the loop. -/
def processQueue (s : Sys) : Sys :=
  if s.say.processingQueue then s
  else
    let s1 := { s with
      say := { s.say with
        processingQueue := true
        speaking := true
        queueGeneration := s.say.queueGeneration + 1 } }
    let gen := s1.say.queueGeneration
    let s2 := emitStart s1
    runLoop (sayFuel s2) gen s2

/-- Dispatch the result of a resumed loop portion. -/
def runRes (fuel gen : Nat) : Res → Sys
  | .susp s => s
  | .next s => runLoop fuel gen s

/-- Generation stored in the gap frame `gid`, if that race is still
pending. -/
def findGapFrame : List Frame → Nat → Option Nat
  | [], _ => none
  | .gap g i :: rest, gid => if i == gid then some g else findGapFrame rest gid
  | _ :: rest, gid => findGapFrame rest gid

/-- Remove the gap frame `gid`. -/
def removeGapFrame (frames : List Frame) (gid : Nat) : List Frame :=
  frames.filter (fun f => match f with | .gap _ i => !(i == gid) | _ => true)

/-- The `Promise.race` of `waitForGap` resolves (by timer or by
completion signal): the suspended coroutine resumes, fires gap-ended, and
continues the loop when its generation is still current.  A race that has
already settled is a no-op. -/
def resumeGapRace (gid : Nat) (s : Sys) : Sys :=
  match findGapFrame s.frames gid with
  | none => s
  | some gen =>
    let s1 := { s with frames := removeGapFrame s.frames gid }
    let s2 := emitGapEnd s1
    if s2.say.queueGeneration == gen then runLoop (sayFuel s2) gen s2 else s2

/-- `signalGapSpeechComplete()` of src/say.ts: resolve the pending gap
race, if any. -/
def signalGapSpeechComplete (s : Sys) : Sys :=
  match s.say.gapResolver with
  | some gid => resumeGapRace gid { s with say := { s.say with gapResolver := none } }
  | none => s

/-- The `say(false)` branch: bump the generation, abort a pending gap
(the race continuation runs as a microtask after the synchronous body),
resolve and clear the queue, the latest slot and the pending interrupt,
kill the active process, and emit finish when currently speaking. -/
def sayHalt (s : Sys) : Sys :=
  let s1 := { s with say := { s.say with queueGeneration := s.say.queueGeneration + 1 } }
  let pendingGap := s1.say.gapResolver
  let s2 := { s1 with say := { s1.say with gapResolver := none } }
  let s3 := resolveEntries s2 s2.say.speechQueue
  let s4 := { s3 with say := { s3.say with speechQueue := [], latestEntry := none } }
  let s5 :=
    match s4.say.pendingInterrupt with
    | some pi =>
      let sa := pushLog s4 (.resolve pi.cid)
      { sa with say := { sa.say with pendingInterrupt := none } }
    | none => s4
  let s6 :=
    match s5.say.activeProcess with
    | some p =>
      let sa := pushLog s5 (.kill p)
      { sa with say := { sa.say with activeProcess := none } }
    | none => s5
  let s7 :=
    if s6.say.speaking then
      emitFinish { s6 with say := { s6.say with speaking := false, processingQueue := false } }
    else s6
  match pendingGap with
  | some gid => resumeGapRace gid s7
  | none => s7

/-- The self-healing check at the top of `say()`: a processing flag with
an empty queue, no pending interrupt and no active process is an
impossible state; reset the flags before proceeding. -/
def healSay (s : Sys) : Sys :=
  if s.say.processingQueue && s.say.speechQueue.isEmpty && !s.say.pendingInterrupt.isSome
      && !s.say.activeProcess.isSome then
    { s with say := { s.say with processingQueue := false, speaking := false } }
  else s

/-- Options of `say()`. -/
structure SayOpts where
  interrupt : Bool := false
  clear : Bool := false
  rude : Bool := false
  latest : Bool := false
deriving DecidableEq, Repr

/-- The rude branch of `say()`: capture the interrupted text while a
process is active, optionally clear the queue, complete the pending
interrupt, kill the active process, reset the flags, insert the rude text
at the front (with latest tracking when requested), re-enqueue the
interrupted text right after it (its resolver in the source is a no-op
closure), and start a fresh drain. -/
def sayRude (s : Sys) (text : String) (opts : SayOpts) : Sys :=
  let interruptedText : Option String :=
    match s.say.activeProcess with
    | some _ => if !(s.say.lastSpoken == "") then some s.say.lastSpoken else none
    | none => none
  let s1 :=
    if opts.clear then
      let sa := resolveEntries s s.say.speechQueue
      { sa with say := { sa.say with speechQueue := [], latestEntry := none } }
    else s
  let s2 :=
    match s1.say.pendingInterrupt with
    | some pi =>
      let sa := pushLog s1 (.resolve pi.cid)
      { sa with say := { sa.say with pendingInterrupt := none } }
    | none => s1
  let s3 :=
    match s2.say.activeProcess with
    | some p =>
      let sa := pushLog s2 (.kill p)
      { sa with say := { sa.say with activeProcess := none } }
    | none => s2
  let s4 := { s3 with say := { s3.say with speaking := false, processingQueue := false } }
  let cid := s4.nextCid
  let s5 := pushLog s4 (.enq cid text)
  let s6 := { s5 with nextCid := s5.nextCid + 1 }
  let s7 :=
    if opts.latest then
      match s6.say.latestEntry with
      | some lc =>
        if (s6.say.speechQueue.map Entry.cid).contains lc then
          let sa := { s6 with say := { s6.say with
            speechQueue := s6.say.speechQueue.filter (fun e => !(e.cid == lc)) } }
          let sb := pushLog sa (.resolve lc)
          { sb with say := { sb.say with latestEntry := some cid } }
        else { s6 with say := { s6.say with latestEntry := some cid } }
      | none => { s6 with say := { s6.say with latestEntry := some cid } }
    else s6
  let s8 := { s7 with say := { s7.say with speechQueue := ⟨cid, text⟩ :: s7.say.speechQueue } }
  let s9 :=
    match interruptedText with
    | some it =>
      let dcid := s8.nextCid
      let sa := pushLog s8 (.enq dcid it)
      let sb := { sa with nextCid := sa.nextCid + 1 }
      { sb with say := { sb.say with speechQueue :=
          match sb.say.speechQueue with
          | h :: t => h :: ⟨dcid, it⟩ :: t
          | [] => [⟨dcid, it⟩] } }
    | none => s8
  processQueue s9

/-- `say(text, options)` for non-empty text, after self-healing: the
rude, polite-interrupt, latest and plain branches of the source. -/
def sayText (s : Sys) (text : String) (opts : SayOpts) : Sys :=
  if opts.rude || opts.clear || opts.interrupt then
    if opts.rude then sayRude s text opts
    else
      let s1 :=
        match s.say.pendingInterrupt with
        | some pi => pushLog s (.resolve pi.cid)
        | none => s
      let cid := s1.nextCid
      let s2 := pushLog s1 (.enq cid text)
      let s3 := { s2 with
        say := { s2.say with pendingInterrupt := some ⟨cid, text, opts.clear⟩ }
        nextCid := s2.nextCid + 1 }
      if !s3.say.processingQueue then processQueue s3 else s3
  else if opts.latest then
    match s.say.latestEntry with
    | some lc =>
      let s1 := pushLog s (.resolve lc)
      let cid := s1.nextCid
      let s2 := pushLog s1 (.enq cid text)
      let s3 := { s2 with
        say := { s2.say with
          speechQueue := s2.say.speechQueue.map
            (fun e => if e.cid == lc then ⟨cid, text⟩ else e)
          latestEntry := some cid }
        nextCid := s2.nextCid + 1 }
      if !s3.say.processingQueue then processQueue s3 else s3
    | none =>
      let cid := s.nextCid
      let s1 := pushLog s (.enq cid text)
      let s2 := { s1 with
        say := { s1.say with
          speechQueue := s1.say.speechQueue ++ [⟨cid, text⟩]
          latestEntry := some cid }
        nextCid := s1.nextCid + 1 }
      processQueue s2
  else
    let cid := s.nextCid
    let s1 := pushLog s (.enq cid text)
    let s2 := { s1 with
      say := { s1.say with speechQueue := s1.say.speechQueue ++ [⟨cid, text⟩] }
      nextCid := s1.nextCid + 1 }
    processQueue s2

/-- Generation and entry id stored in the speak frame awaiting `pid`. -/
def findSpeakFrame : List Frame → Nat → Option (Nat × Nat)
  | [], _ => none
  | .speak g p c :: rest, pid => if p == pid then some (g, c) else findSpeakFrame rest pid
  | _ :: rest, pid => findSpeakFrame rest pid

/-- Remove the speak frame awaiting `pid`. -/
def removeSpeakFrame (frames : List Frame) (pid : Nat) : List Frame :=
  frames.filter (fun f => match f with | .speak _ p _ => !(p == pid) | _ => true)

/-- Exit of an output process: the exit handler drops the handle when it
is still the active one, then the promise of the `speakOne` awaiting this
process resolves and the drain coroutine resumes. -/
def sayExitStep (pid : Nat) (s : Sys) : Sys :=
  if s.sayLive.contains pid then
    let s1 := { s with sayLive := s.sayLive.filter (fun q => !(q == pid)) }
    let s2 :=
      if s1.say.activeProcess == some pid then
        { s1 with say := { s1.say with activeProcess := none } }
      else s1
    match findSpeakFrame s2.frames pid with
    | some (gen, cid) =>
      let s3 := { s2 with frames := removeSpeakFrame s2.frames pid }
      runRes (sayFuel s3) gen (afterSpeakR gen cid s3)
    | none => s2
  else s

/-- The gap timer `gid` fires: only exactly at its deadline; resolving an
already settled race is a no-op. -/
def gapTimerStep (gid t : Nat) (s : Sys) : Sys :=
  match s.gapTimers.find? (fun gd => gd.1 == gid) with
  | some gd =>
    if t == gd.2 then
      let s1 := { s with gapTimers := s.gapTimers.filter (fun x => !(x.1 == gid)) }
      resumeGapRace gid s1
    else s
  | none => s

/-- `hear(callback, timeoutMs)`: register the gap listeners once, update
the timeout and callback; hot-swap when already listening (re-arming the
silence timer when the timeout changed); wait for speech-finished when
TTS is speaking; otherwise start listening. -/
def hearCallStep (ms : Nat) (s : Sys) : Sys :=
  let timeoutChanged := !(s.hear.timeoutDuration == ms)
  let s1 := { s with
    hear := { s.hear with
      timeoutDuration := ms
      hasCallback := true
      gapListenersRegistered := true } }
  match s1.hear.hActive with
  | some _ =>
    if timeoutChanged then
      { s1 with hear := { s1.hear with silenceDeadline := some (s1.time + ms) } }
    else s1
  | none =>
    if s1.say.speaking then s1 else hearStartListening s1

/-- `hear(false)`: the cleanup path — stop continuing, drop the callback,
clear the silence timer and transcript, kill the active input process,
and unregister the gap listeners. -/
def hearStopStep (s : Sys) : Sys :=
  let s1 := { s with
    hear := { s.hear with
      shouldContinueListening := false
      hasCallback := false
      silenceDeadline := none } }
  let s2 :=
    match s1.hear.hActive with
    | some p =>
      let sa := pushLog s1 (.hearKill p)
      { sa with hear := { sa.hear with hActive := none } }
    | none => s1
  { s2 with
    hear := { s2.hear with
      lastTranscribedText := ""
      gapListenersRegistered := false } }

/-- A complete non-blank transcript line arrives on the stdout of a live
input process: record it, re-arm the silence timer, and fire the
streaming callback unless muted.  (The phonetic correction applied to the
emitted line is an external collaborator.) -/
def hearLineStep (pid : Nat) (line : String) (s : Sys) : Sys :=
  if s.hearLive.contains pid && !(trimChars line.toList == []) then
    let s1 := { s with
      hear := { s.hear with
        lastTranscribedText := line
        silenceDeadline := some (s.time + s.hear.timeoutDuration) } }
    if s1.hear.hasCallback && !s1.hear.muted then pushLog s1 (.lineCb line) else s1
  else s

/-- Exit of an input process: the exit handler drops the handle and the
silence timer unconditionally and restarts listening when the coordinator
should continue and a callback is registered.  (The source attaches this
handler to every spawned process without a staleness guard.) -/
def hearExitStep (pid : Nat) (s : Sys) : Sys :=
  if s.hearLive.contains pid then
    let s1 := { s with hearLive := s.hearLive.filter (fun q => !(q == pid)) }
    let s2 := { s1 with hear := { s1.hear with hActive := none, silenceDeadline := none } }
    if s2.hear.shouldContinueListening && s2.hear.hasCallback then hearStartListening s2
    else s2
  else s

/-- `onSilence()` of the hear coordinator: with no accumulated text or no
callback, just re-arm while still listening.  Otherwise take the text,
clear the buffer, kill the process (restart comes from its exit event)
when continuing, and then — unless muted — fire the final callback and
signal gap completion when inside a gap. -/
def onSilence (s : Sys) : Sys :=
  if s.hear.lastTranscribedText == "" || !s.hear.hasCallback then
    if s.hear.hasCallback && s.hear.hActive.isSome then
      { s with hear := { s.hear with
          silenceDeadline := some (s.time + s.hear.timeoutDuration) } }
    else s
  else
    let text := s.hear.lastTranscribedText
    let s1 := { s with hear := { s.hear with lastTranscribedText := "" } }
    let s2 :=
      match s1.hear.hActive with
      | some p => if s1.hear.shouldContinueListening then pushLog s1 (.hearKill p) else s1
      | none => s1
    if s2.hear.muted then s2
    else
      let s3 := pushLog s2 (.finalCb text)
      if s3.hear.inGap then signalGapSpeechComplete s3 else s3

/-- The silence timer fires (exactly at its deadline): consume the timer
and run `onSilence`. -/
def silenceFireStep (t : Nat) (s : Sys) : Sys :=
  if s.hear.silenceDeadline == some t then
    onSilence { s with hear := { s.hear with silenceDeadline := none } }
  else s

/-- External events driving the system.  `sayCall none` is `say(false)`. -/
inductive Act where
  | sayCall (text : Option String) (opts : SayOpts)
  | sayExit (pid : Nat)
  | gapTimerFire (gid : Nat)
  | signalComplete
  | hearCall (timeoutMs : Nat)
  | hearStop
  | hearLine (pid : Nat) (line : String)
  | hearExit (pid : Nat)
  | silenceFire
  | setMute (b : Bool)
  | setGapDuration (ms : Nat)
  | setRepeatReduction (b : Bool)
deriving DecidableEq, Repr

/-- One step of the system: advance the clock to the event's timestamp and
run the synchronous JavaScript triggered by the event.  In `say()`, the
empty-text no-op precedes the self-healing check, which precedes the halt
branch, as in the source. -/
def step (s : Sys) (t : Nat) (a : Act) : Sys :=
  let s0 := { s with time := t }
  match a with
  | .sayCall none _ => sayHalt (healSay s0)
  | .sayCall (some text) opts =>
    if text == "" then s0 else sayText (healSay s0) text opts
  | .sayExit pid => sayExitStep pid s0
  | .gapTimerFire gid => gapTimerStep gid t s0
  | .signalComplete => signalGapSpeechComplete s0
  | .hearCall ms => hearCallStep ms s0
  | .hearStop => hearStopStep s0
  | .hearLine pid line => hearLineStep pid line s0
  | .hearExit pid => hearExitStep pid s0
  | .silenceFire => silenceFireStep t s0
  | .setMute b => { s0 with hear := { s0.hear with muted := b } }
  | .setGapDuration ms => { s0 with say := { s0.say with gapDuration := ms } }
  | .setRepeatReduction b => { s0 with say := { s0.say with repeatReductionEnabled := b } }

/-- The initial module state at load time, with the documented environment
defaults (gap duration 2 seconds, silence timeout 2500 ms, repetition
reduction on, no subscribers, nothing muted). -/
def initSys : Sys :=
  { say := {
      activeProcess := none
      lastSpoken := ""
      speaking := false
      repeatReductionEnabled := true
      gapDuration := 2000
      gapResolver := none
      queueGeneration := 0
      speechQueue := []
      processingQueue := false
      latestEntry := none
      pendingInterrupt := none }
    hear := {
      hActive := none
      hasCallback := false
      silenceDeadline := none
      lastTranscribedText := ""
      timeoutDuration := 2500
      shouldContinueListening := false
      inGap := false
      gapListenersRegistered := false
      muted := false }
    frames := []
    gapTimers := []
    sayLive := []
    hearLive := []
    externalGapStartListeners := 0
    time := 0
    nextCid := 0
    nextPid := 0
    nextGid := 0
    log := [] }

/-- Run a timed event sequence from the initial state. -/
def runTrace (tr : List (Nat × Act)) : Sys :=
  tr.foldl (fun s ta => step s ta.1 ta.2) initSys

/-- Continue a run from a given state. -/
def runFrom (s : Sys) (tr : List (Nat × Act)) : Sys :=
  tr.foldl (fun acc ta => step acc ta.1 ta.2) s

/-- The completion ids resolved in a log, in order. -/
def resolvedCids (log : List Ev) : List Nat :=
  log.filterMap fun e => match e with | .resolve c => some c | _ => none

/-- The completion ids serviced (handed to speakOne) in a log, in order. -/
def servicedCids (log : List Ev) : List Nat :=
  log.filterMap fun e => match e with | .serviced c _ => some c | _ => none

/-- The completion ids enqueued in a log, in order. -/
def enqueuedCids (log : List Ev) : List Nat :=
  log.filterMap fun e => match e with | .enq c _ => some c | _ => none

/-- The texts of the launched output processes, in order. -/
def launchTexts (log : List Ev) : List String :=
  log.filterMap fun e => match e with | .launch _ _ t _ => some t | _ => none

/-- The completion ids of the queued entries, in queue order. -/
def queueCids (s : Sys) : List Nat := s.say.speechQueue.map Entry.cid

/-- The completion id held by the pending-interrupt slot, if any. -/
def pendCids (s : Sys) : List Nat :=
  match s.say.pendingInterrupt with
  | some pi => [pi.cid]
  | none => []

/-- The completion ids of entries currently awaited by suspended
`await speakOne` frames (serviced but not yet resolved), in frame order. -/
def frameCids (s : Sys) : List Nat :=
  s.frames.filterMap fun f => match f with | .speak _ _ c => some c | _ => none

/-- The output-process pids awaited by suspended `await speakOne` frames. -/
def speakFramePids (s : Sys) : List Nat :=
  s.frames.filterMap fun f => match f with | .speak _ p _ => some p | _ => none

/-- All live (unresolved) completion ids of the engine: queued, pending
interrupt, and in flight. -/
def liveCids (s : Sys) : List Nat :=
  queueCids s ++ pendCids s ++ frameCids s

/-- The generation a suspended frame belongs to. -/
def frameGen : Frame → Nat
  | .speak g _ _ => g
  | .gap g _ => g

/-- The impossible stuck state detected by the self-healing check of
`say()`: the processing flag is set but there is nothing to process and no
active process. -/
def stuckSay (y : SayState) : Prop :=
  y.processingQueue = true ∧ y.speechQueue = [] ∧ y.pendingInterrupt = none ∧
    y.activeProcess = none

/-- The per-state safety invariant of the engine: live completion ids are
distinct, unresolved, and below the id counter; resolved ids are distinct
and below the counter; the latest slot points into the queue; speak
frames have distinct pids that are still live and below the pid counter;
all suspended frames belong to generations at or below the current one. -/
def SysInv (s : Sys) : Prop :=
  (liveCids s).Nodup ∧
  (∀ c ∈ liveCids s, c ∉ resolvedCids s.log) ∧
  (resolvedCids s.log).Nodup ∧
  (∀ c ∈ liveCids s, c < s.nextCid) ∧
  (∀ c ∈ resolvedCids s.log, c < s.nextCid) ∧
  (∀ lc, s.say.latestEntry = some lc → lc ∈ queueCids s) ∧
  (speakFramePids s).Nodup ∧
  (∀ p ∈ speakFramePids s, p ∈ s.sayLive) ∧
  (∀ p ∈ s.sayLive, p < s.nextPid) ∧
  (∀ f ∈ s.frames, frameGen f ≤ s.say.queueGeneration)

/-- Traces whose say calls pass a text and none of the interrupt, clear or
rude options (the hypothesis of the FIFO claim as stated; `latest` is not
excluded). -/
def actTextNoICR (a : Act) : Bool :=
  match a with
  | .sayCall none _ => false
  | .sayCall (some _) o => !o.interrupt && !o.clear && !o.rude
  | _ => true

/-- Traces whose say calls pass a text and no options at all. -/
def actTextNoOpts (a : Act) : Bool :=
  match a with
  | .sayCall none _ => false
  | .sayCall (some _) o => !o.interrupt && !o.clear && !o.rude && !o.latest
  | _ => true

/-- Every event of the trace satisfies the given restriction. -/
def traceAll (p : Act → Bool) (tr : List (Nat × Act)) : Bool :=
  tr.all fun ta => p ta.2

/-- The FIFO property of an execution: the enqueued completion ids are
consecutive from zero (they number the say calls in call order), the
serviced ids form an initial segment of them in the same order, and the
resolved ids form an initial segment of the serviced ones in the same
order.  Applied to every prefix of a trace this says: utterances are
serviced in call order, completed in call order, and a completion only
resolves once it — and hence every earlier call — has been serviced. -/
def FifoLog (s : Sys) : Prop :=
  enqueuedCids s.log = List.range s.nextCid ∧
  servicedCids s.log = List.range (servicedCids s.log).length ∧
  resolvedCids s.log = List.range (resolvedCids s.log).length ∧
  (resolvedCids s.log).length ≤ (servicedCids s.log).length ∧
  (servicedCids s.log).length ≤ s.nextCid

/-- The drain-shape invariant maintained by option-free traces, on top of
`FifoLog`: no pending interrupt or latest slot; the not yet serviced
entries sit in the queue in call order; and the engine is either idle, or
draining with exactly one suspended frame of the current generation —
awaiting the exit of the active process for the single serviced but
unresolved entry, or awaiting a gap race with more entries queued. -/
def PlainInv (s : Sys) : Prop :=
  FifoLog s ∧
  s.say.pendingInterrupt = none ∧
  s.say.latestEntry = none ∧
  queueCids s = List.range' (servicedCids s.log).length
    (s.nextCid - (servicedCids s.log).length) ∧
  ((s.say.processingQueue = false ∧ s.say.speaking = false ∧ s.frames = [] ∧
      s.say.speechQueue = [] ∧ s.say.activeProcess = none ∧ s.say.gapResolver = none ∧
      s.sayLive = [] ∧
      (resolvedCids s.log).length = s.nextCid ∧
      (servicedCids s.log).length = s.nextCid) ∨
    (s.say.processingQueue = true ∧ s.say.speaking = true ∧
      (∃ p, s.frames = [.speak s.say.queueGeneration p ((resolvedCids s.log).length)] ∧
        s.say.activeProcess = some p ∧ s.sayLive = [p]) ∧
      s.say.gapResolver = none ∧
      (servicedCids s.log).length = (resolvedCids s.log).length + 1) ∨
    (s.say.processingQueue = true ∧ s.say.speaking = true ∧
      (∃ gid, s.frames = [.gap s.say.queueGeneration gid] ∧
        s.say.gapResolver = some gid) ∧
      s.say.speechQueue ≠ [] ∧ s.say.activeProcess = none ∧ s.sayLive = [] ∧
      (servicedCids s.log).length = (resolvedCids s.log).length))

/-- Two states agree on everything the say engine's FIFO behaviour can
see: the say state, the suspended frames, the live output processes, the
completion-id counter, and the log up to events that are neither
enqueues, servicings nor resolutions. -/
def sayAgrees (s s2 : Sys) : Prop :=
  s2.say = s.say ∧ s2.frames = s.frames ∧ s2.sayLive = s.sayLive ∧
  s2.nextCid = s.nextCid ∧
  ∃ extra, s2.log = s.log ++ extra ∧ resolvedCids extra = [] ∧
    servicedCids extra = [] ∧ enqueuedCids extra = []

/-- The state at the top of an iteration of the drain loop of a plain
(option-free) run: flags set, current generation, nothing suspended, no
active process, no open gap, the queue holding exactly the not yet
serviced entries in call order, and every serviced entry resolved. -/
def DrainInv (gen : Nat) (s : Sys) : Prop :=
  FifoLog s ∧
  s.say.pendingInterrupt = none ∧
  s.say.latestEntry = none ∧
  queueCids s = List.range' (servicedCids s.log).length
    (s.nextCid - (servicedCids s.log).length) ∧
  s.say.processingQueue = true ∧
  s.say.speaking = true ∧
  s.say.queueGeneration = gen ∧
  s.frames = [] ∧
  s.say.activeProcess = none ∧
  s.say.gapResolver = none ∧
  s.sayLive = [] ∧
  (resolvedCids s.log).length = (servicedCids s.log).length

/-! ### Basic facts about the event-log extractors -/

@[simp]
theorem resolvedCids_append (xs ys : List Ev) :
    resolvedCids (xs ++ ys) = resolvedCids xs ++ resolvedCids ys := by
  simp [resolvedCids]

@[simp]
theorem servicedCids_append (xs ys : List Ev) :
    servicedCids (xs ++ ys) = servicedCids xs ++ servicedCids ys := by
  simp [servicedCids]

@[simp]
theorem enqueuedCids_append (xs ys : List Ev) :
    enqueuedCids (xs ++ ys) = enqueuedCids xs ++ enqueuedCids ys := by
  simp [enqueuedCids]

@[simp]
theorem launchTexts_append (xs ys : List Ev) :
    launchTexts (xs ++ ys) = launchTexts xs ++ launchTexts ys := by
  simp [launchTexts]

/-! ### Every machine operation only appends to the log -/

theorem log_pushLog (s : Sys) (e : Ev) : s.log <+: (pushLog s e).log :=
  ⟨[e], rfl⟩

theorem log_hearStopActive (s : Sys) : s.log <+: (hearStopActive s).log := by
  unfold hearStopActive
  cases s.hear.hActive <;> simp [pushLog]

theorem log_hearStartListening (s : Sys) : s.log <+: (hearStartListening s).log := by
  simp [hearStartListening, pushLog]

theorem log_emitStart (s : Sys) : s.log <+: (emitStart s).log := by
  unfold emitStart
  refine List.IsPrefix.trans ?_ (log_hearStopActive _)
  exact log_pushLog s .startEv

theorem log_emitFinish (s : Sys) : s.log <+: (emitFinish s).log := by
  unfold emitFinish
  dsimp only
  split
  case isTrue =>
    refine List.IsPrefix.trans ?_ (log_hearStartListening _)
    exact log_pushLog s .finishEv
  case isFalse => exact log_pushLog s .finishEv

theorem log_emitGapStart (s : Sys) : s.log <+: (emitGapStart s).log := by
  unfold emitGapStart
  dsimp only
  split
  case isTrue =>
    split
    case isTrue =>
      refine List.IsPrefix.trans ?_ (log_hearStartListening _)
      exact log_pushLog s .gapStartEv
    case isFalse => exact log_pushLog s .gapStartEv
  case isFalse => exact log_pushLog s .gapStartEv

theorem log_emitGapEnd (s : Sys) : s.log <+: (emitGapEnd s).log := by
  unfold emitGapEnd
  dsimp only
  split
  case isTrue =>
    split
    case h_1 p hp => exact ⟨[.gapEndEv, .hearKill p], by simp [pushLog]⟩
    case h_2 => exact ⟨[.gapEndEv], by simp [pushLog]⟩
  case isFalse => exact ⟨[.gapEndEv], by simp [pushLog]⟩

theorem log_resolveEntries (s : Sys) (es : List Entry) :
    s.log <+: (resolveEntries s es).log := by
  induction es generalizing s with
  | nil => exact List.prefix_rfl
  | cons e rest ih =>
    refine List.IsPrefix.trans ?_ (ih (pushLog s (.resolve e.cid)))
    exact log_pushLog s (.resolve e.cid)

/-- Variant of `log_resolveEntries` usable when the state argument is a
record literal whose log field is definitionally the given list. -/
theorem prefix_resolveEntries_of (s2 : Sys) (es : List Entry) {l : List Ev}
    (h : l = s2.log) : l <+: (resolveEntries s2 es).log :=
  h ▸ log_resolveEntries s2 es

/-- Prefix through a definitional equality of the left end. -/
theorem prefixOfEq {α : Type} {l l2 l3 : List α} (h : l = l2) (h2 : l2 <+: l3) :
    l <+: l3 :=
  h ▸ h2

theorem log_finishUp (gen : Nat) (s : Sys) : s.log <+: (finishUp gen s).log := by
  unfold finishUp
  split
  case isTrue =>
    refine List.IsPrefix.trans ?_ (log_emitFinish _)
    exact List.prefix_rfl
  case isFalse => exact List.prefix_rfl

theorem log_launchSay (gen cid : Nat) (t1 t2 : String) (s : Sys) :
    s.log <+: (launchSay gen cid t1 t2 s).log := by
  simp [launchSay, pushLog]

theorem log_afterSpeakR (gen cid : Nat) (s : Sys) :
    s.log <+: (afterSpeakR gen cid s).sys.log := by
  unfold afterSpeakR
  dsimp only
  split
  case isTrue => exact log_pushLog s _
  case isFalse =>
    split
    case isTrue =>
      split
      case isTrue => exact log_pushLog s _
      case isFalse =>
        show s.log <+: (emitGapStart _).log
        refine List.IsPrefix.trans ?_ (log_emitGapStart _)
        exact log_pushLog s (.resolve cid)
    case isFalse => exact log_pushLog s _

theorem log_speakStepR (gen cid : Nat) (tx : String) (s : Sys) :
    s.log <+: (speakStepR gen cid tx s).sys.log := by
  unfold speakStepR
  dsimp only
  split
  case isTrue =>
    split
    case h_1 =>
      refine List.IsPrefix.trans ?_ (log_afterSpeakR gen cid _)
      exact log_pushLog s (.serviced cid tx)
    case h_2 tts h =>
      show s.log <+: (launchSay _ _ _ _ _).log
      refine List.IsPrefix.trans ?_ (log_launchSay gen cid tx tts _)
      exact log_pushLog s (.serviced cid tx)
  case isFalse =>
    show s.log <+: (launchSay _ _ _ _ _).log
    refine List.IsPrefix.trans ?_ (log_launchSay gen cid tx tx _)
    exact log_pushLog s (.serviced cid tx)

theorem log_runLoop (fuel gen : Nat) (s : Sys) : s.log <+: (runLoop fuel gen s).log := by
  induction fuel generalizing s with
  | zero => exact List.prefix_rfl
  | succ fuel ih =>
    have hrr : ∀ r : Res, r.sys.log <+: (runRes fuel gen r).log := by
      intro r
      cases r with
      | susp s4 => exact List.prefix_rfl
      | next s4 => exact ih s4
    unfold runLoop
    dsimp only
    split
    case isTrue => exact log_finishUp gen s
    case isFalse =>
      split
      case isTrue => exact List.prefix_rfl
      case isFalse =>
        split
        case h_1 pi hpi =>
          show s.log <+: (runRes fuel gen (speakStepR gen pi.cid pi.text _)).log
          refine List.IsPrefix.trans ?_
            (List.IsPrefix.trans (log_speakStepR gen pi.cid pi.text _) (hrr _))
          split
          case isTrue =>
            refine List.IsPrefix.trans ?_ (log_resolveEntries _ _)
            exact List.prefix_rfl
          case isFalse => exact List.prefix_rfl
        case h_2 =>
          split
          case h_1 => exact List.prefix_rfl
          case h_2 e rest h2 =>
            show s.log <+: (runRes fuel gen (speakStepR gen e.cid e.text _)).log
            refine List.IsPrefix.trans ?_
              (List.IsPrefix.trans (log_speakStepR gen e.cid e.text _) (hrr _))
            exact List.prefix_rfl

theorem log_processQueue (s : Sys) : s.log <+: (processQueue s).log := by
  unfold processQueue
  dsimp only
  split
  case isTrue => exact List.prefix_rfl
  case isFalse =>
    refine List.IsPrefix.trans ?_ (log_runLoop _ _ _)
    refine List.IsPrefix.trans ?_ (log_emitStart _)
    exact List.prefix_rfl

theorem log_resumeGapRace (gid : Nat) (s : Sys) : s.log <+: (resumeGapRace gid s).log := by
  unfold resumeGapRace
  dsimp only
  split
  case h_1 => exact List.prefix_rfl
  case h_2 gen hg =>
    split
    case isTrue =>
      refine List.IsPrefix.trans ?_ (log_runLoop _ _ _)
      refine List.IsPrefix.trans ?_ (log_emitGapEnd _)
      exact List.prefix_rfl
    case isFalse =>
      refine List.IsPrefix.trans ?_ (log_emitGapEnd _)
      exact List.prefix_rfl

theorem log_signalGapSpeechComplete (s : Sys) :
    s.log <+: (signalGapSpeechComplete s).log := by
  unfold signalGapSpeechComplete
  split
  case h_1 gid hg =>
    refine List.IsPrefix.trans ?_ (log_resumeGapRace gid _)
    exact List.prefix_rfl
  case h_2 => exact List.prefix_rfl

theorem log_sayHalt (s : Sys) : s.log <+: (sayHalt s).log := by
  unfold sayHalt
  dsimp only
  split
  case h_1 gid hg =>
    refine List.IsPrefix.trans ?_ (log_resumeGapRace gid _)
    split
    case isTrue =>
      refine List.IsPrefix.trans ?_ (log_emitFinish _)
      repeat' split
      all_goals simp only [pushLog, List.append_assoc]
      all_goals
        first
          | exact List.prefix_append _ _
          | exact List.prefix_rfl
          | exact (prefix_resolveEntries_of _ _ (by rfl)).trans (List.prefix_append _ _)
          | exact prefix_resolveEntries_of _ _ (by rfl)
    case isFalse =>
      repeat' split
      all_goals simp only [pushLog, List.append_assoc]
      all_goals
        first
          | exact List.prefix_append _ _
          | exact List.prefix_rfl
          | exact (prefix_resolveEntries_of _ _ (by rfl)).trans (List.prefix_append _ _)
          | exact prefix_resolveEntries_of _ _ (by rfl)
  case h_2 hg =>
    split
    case isTrue =>
      refine List.IsPrefix.trans ?_ (log_emitFinish _)
      repeat' split
      all_goals simp only [pushLog, List.append_assoc]
      all_goals
        first
          | exact List.prefix_append _ _
          | exact List.prefix_rfl
          | exact (prefix_resolveEntries_of _ _ (by rfl)).trans (List.prefix_append _ _)
          | exact prefix_resolveEntries_of _ _ (by rfl)
    case isFalse =>
      repeat' split
      all_goals simp only [pushLog, List.append_assoc]
      all_goals
        first
          | exact List.prefix_append _ _
          | exact List.prefix_rfl
          | exact (prefix_resolveEntries_of _ _ (by rfl)).trans (List.prefix_append _ _)
          | exact prefix_resolveEntries_of _ _ (by rfl)

theorem log_sayRude (s : Sys) (text : String) (opts : SayOpts) :
    s.log <+: (sayRude s text opts).log := by
  unfold sayRude
  dsimp only
  refine List.IsPrefix.trans ?_ (log_processQueue _)
  repeat' split
  all_goals simp only [pushLog, List.append_assoc]
  all_goals
    first
      | exact List.prefix_append _ _
      | exact List.prefix_rfl
      | exact (log_resolveEntries _ _).trans (List.prefix_append _ _)

theorem log_sayText (s : Sys) (text : String) (opts : SayOpts) :
    s.log <+: (sayText s text opts).log := by
  unfold sayText
  dsimp only
  split
  case isTrue =>
    split
    case isTrue => exact log_sayRude s text opts
    case isFalse =>
      repeat' split
      all_goals
        first
          | (refine List.IsPrefix.trans ?_ (log_processQueue _)
             simp only [pushLog, List.append_assoc]
             first
               | exact List.prefix_append _ _
               | exact List.prefix_rfl)
          | (simp only [pushLog, List.append_assoc]
             first
               | exact List.prefix_append _ _
               | exact List.prefix_rfl)
  case isFalse =>
    repeat' split
    all_goals
      first
        | (refine List.IsPrefix.trans ?_ (log_processQueue _)
           simp only [pushLog, List.append_assoc]
           first
             | exact List.prefix_append _ _
             | exact List.prefix_rfl)
        | (simp only [pushLog, List.append_assoc]
           first
             | exact List.prefix_append _ _
             | exact List.prefix_rfl)

theorem log_healSay (s : Sys) : s.log <+: (healSay s).log := by
  unfold healSay
  split <;> exact List.prefix_rfl

theorem log_sayExitStep (pid : Nat) (s : Sys) : s.log <+: (sayExitStep pid s).log := by
  unfold sayExitStep
  dsimp only
  split
  case isTrue =>
    split
    case h_1 gen cid hgc =>
      have hrr : ∀ (fl : Nat) (r : Res), r.sys.log <+: (runRes fl gen r).log := by
        intro fl r
        cases r with
        | susp s4 => exact List.prefix_rfl
        | next s4 => exact log_runLoop _ _ s4
      refine List.IsPrefix.trans ?_ ((log_afterSpeakR gen cid _).trans (hrr _ _))
      split <;> exact List.prefix_rfl
    case h_2 =>
      split <;> exact List.prefix_rfl
  case isFalse => exact List.prefix_rfl

theorem log_gapTimerStep (gid t : Nat) (s : Sys) : s.log <+: (gapTimerStep gid t s).log := by
  unfold gapTimerStep
  dsimp only
  split
  case h_1 gd hgd =>
    split
    case isTrue => exact prefixOfEq (by rfl) (log_resumeGapRace gid _)
    case isFalse => exact List.prefix_rfl
  case h_2 => exact List.prefix_rfl

theorem log_hearCallStep (ms : Nat) (s : Sys) : s.log <+: (hearCallStep ms s).log := by
  unfold hearCallStep
  dsimp only
  split
  case h_1 =>
    split <;> exact List.prefix_rfl
  case h_2 =>
    split
    case isTrue => exact List.prefix_rfl
    case isFalse =>
      refine List.IsPrefix.trans ?_ (log_hearStartListening _)
      exact List.prefix_rfl

theorem log_hearStopStep (s : Sys) : s.log <+: (hearStopStep s).log := by
  unfold hearStopStep
  dsimp only
  split
  all_goals try simp only [pushLog, List.append_assoc]
  all_goals first | exact List.prefix_append _ _ | exact List.prefix_rfl

theorem log_hearLineStep (pid : Nat) (line : String) (s : Sys) :
    s.log <+: (hearLineStep pid line s).log := by
  unfold hearLineStep
  dsimp only
  repeat' split
  all_goals try simp only [pushLog, List.append_assoc]
  all_goals first | exact List.prefix_append _ _ | exact List.prefix_rfl

theorem log_hearExitStep (pid : Nat) (s : Sys) : s.log <+: (hearExitStep pid s).log := by
  unfold hearExitStep
  dsimp only
  repeat' split
  all_goals
    first
      | (refine List.IsPrefix.trans ?_ (log_hearStartListening _); exact List.prefix_rfl)
      | exact List.prefix_rfl

theorem log_onSilence (s : Sys) : s.log <+: (onSilence s).log := by
  unfold onSilence
  dsimp only
  repeat' split
  all_goals
    first
      | exact List.prefix_rfl
      | (refine List.IsPrefix.trans ?_ (log_signalGapSpeechComplete _)
         simp only [pushLog, List.append_assoc]
         first | exact List.prefix_append _ _ | exact List.prefix_rfl)
      | (simp only [pushLog, List.append_assoc]
         first | exact List.prefix_append _ _ | exact List.prefix_rfl)

theorem log_silenceFireStep (t : Nat) (s : Sys) : s.log <+: (silenceFireStep t s).log := by
  unfold silenceFireStep
  split
  case isTrue =>
    refine List.IsPrefix.trans ?_ (log_onSilence _)
    exact List.prefix_rfl
  case isFalse => exact List.prefix_rfl

theorem log_step (s : Sys) (t : Nat) (a : Act) : s.log <+: (step s t a).log := by
  unfold step
  cases a with
  | sayCall tx opts =>
    cases tx with
    | none =>
      dsimp only
      refine prefixOfEq (by rfl) ?_
      refine List.IsPrefix.trans ?_ (log_sayHalt _)
      exact prefixOfEq (by rfl) (log_healSay _)
    | some text =>
      dsimp only
      split
      case isTrue => exact List.prefix_rfl
      case isFalse =>
        refine prefixOfEq (by rfl) ?_
        refine List.IsPrefix.trans ?_ (log_sayText _ text opts)
        exact prefixOfEq (by rfl) (log_healSay _)
  | sayExit pid =>
    dsimp only
    exact prefixOfEq (by rfl) (log_sayExitStep pid _)
  | gapTimerFire gid =>
    dsimp only
    exact prefixOfEq (by rfl) (log_gapTimerStep gid t _)
  | signalComplete =>
    dsimp only
    exact prefixOfEq (by rfl) (log_signalGapSpeechComplete _)
  | hearCall ms =>
    dsimp only
    exact prefixOfEq (by rfl) (log_hearCallStep ms _)
  | hearStop =>
    dsimp only
    exact prefixOfEq (by rfl) (log_hearStopStep _)
  | hearLine pid line =>
    dsimp only
    exact prefixOfEq (by rfl) (log_hearLineStep pid line _)
  | hearExit pid =>
    dsimp only
    exact prefixOfEq (by rfl) (log_hearExitStep pid _)
  | silenceFire =>
    dsimp only
    exact prefixOfEq (by rfl) (log_silenceFireStep t _)
  | setMute b => exact List.prefix_rfl
  | setGapDuration ms => exact List.prefix_rfl
  | setRepeatReduction b => exact List.prefix_rfl

/-! ### Repetition reduction of an exact duplicate -/

theorem commonPrefixLen_self (l : List Char) : commonPrefixLen l l = l.length := by
  induction l with
  | nil => rfl
  | cons c cs ih => simp [commonPrefixLen, ih]

theorem wordAt_length (l : List Char) : wordAt l l.length = false := by
  simp [wordAt, List.get?_eq_none.mpr (le_refl _)]

theorem snapPrefixBack_length (l : List Char) : snapPrefixBack l l.length = l.length := by
  cases h : l.length with
  | zero => simp [snapPrefixBack]
  | succ p =>
    have h2 : wordAt l (p + 1) = false := h ▸ wordAt_length l
    simp [snapPrefixBack, h2]

/-- Identical consecutive texts always reduce to nothing: the whole text is
common prefix, so the remainder is empty and the utterance is skipped. -/
theorem reduceRepetition_self (t : String) : reduceRepetition t t = none := by
  unfold reduceRepetition
  simp only [commonPrefixLen_self, snapPrefixBack_length, List.drop_length,
    leadNonWord, Nat.add_zero, Nat.sub_self, Nat.min_self]
  have hlen : t.length = t.data.length := rfl
  have h0 : List.drop t.length (List.take t.length t.data) = [] := by
    rw [hlen, List.take_length t.data, List.drop_length]
  simp [commonPrefixLenUpTo, snapSuffixBack, leadNonWordUpTo, trimChars, h0]

/-- C5.  With repetition reduction enabled: the incrementally-updated
status text "Processing file: 2 of 100" spoken after
"Processing file: 1 of 100" is shaped to exactly "2"; and a say request
whose text equals the last spoken text launches no output process while
still resolving its completion and re-recording the text as last spoken:
from an idle engine, the whole drain runs synchronously, emits no launch
event, resolves the fresh completion id and keeps `lastSpoken = tx`. -/
theorem c5_repetition_reduction :
    reduceRepetition "Processing file: 2 of 100" "Processing file: 1 of 100" = some "2" ∧
    ∀ (s : Sys) (t : Nat) (tx : String),
      s.say.processingQueue = false →
      s.say.speechQueue = [] →
      s.say.pendingInterrupt = none →
      s.say.repeatReductionEnabled = true →
      s.say.lastSpoken = tx →
      tx ≠ "" →
      s.hear.hasCallback = false →
      s.hear.hActive = none →
      (step s t (.sayCall (some tx) {})).log =
        s.log ++ [.enq s.nextCid tx, .startEv, .serviced s.nextCid tx,
          .resolve s.nextCid, .finishEv] ∧
      launchTexts (step s t (.sayCall (some tx) {})).log = launchTexts s.log ∧
      (step s t (.sayCall (some tx) {})).say.lastSpoken = tx := by
  constructor
  · decide
  · intro s t tx h1 h2 h3 h4 h5 h6 h7 h8
    have hne : (tx == "") = false := by simp [h6]
    simp [step, healSay, sayText, processQueue, emitStart, hearStopActive,
      sayFuel, runLoop, speakStepR, afterSpeakR, finishUp, emitFinish,
      reduceRepetition_self, pushLog, launchTexts, hne, h1, h2, h3, h4, h5, h7, h8]

/-- Witness for C5: a concrete idle engine that has just spoken "x",
asked to speak "x" again. -/
theorem c5_repetition_reduction_witness :
    (let s := runTrace [(0, .sayCall (some "x") {}), (1, .sayExit 0)]
     s.say.processingQueue = false ∧ s.say.speechQueue = [] ∧
     s.say.pendingInterrupt = none ∧ s.say.repeatReductionEnabled = true ∧
     s.say.lastSpoken = "x" ∧ s.hear.hasCallback = false ∧ s.hear.hActive = none ∧
     (step s 2 (.sayCall (some "x") {})).log =
       s.log ++ [.enq 1 "x", .startEv, .serviced 1 "x", .resolve 1, .finishEv] ∧
     launchTexts (step s 2 (.sayCall (some "x") {})).log = launchTexts s.log) := by
  refine ⟨by decide, by decide, by decide, by decide, by decide, by decide, by decide, ?_, ?_⟩
  · exact (c5_repetition_reduction.2 _ 2 "x" (by decide) (by decide) (by decide)
      (by decide) (by decide) (by decide) (by decide) (by decide)).1
  · exact (c5_repetition_reduction.2 _ 2 "x" (by decide) (by decide) (by decide)
      (by decide) (by decide) (by decide) (by decide) (by decide)).2.1


/-- A muted silence-final path never fires the final callback: any final
callback event in the post-state log was already there. -/
theorem onSilence_muted_nofinal (s2 : Sys) (hm : s2.hear.muted = true) (tx : String) :
    Ev.finalCb tx ∈ (onSilence s2).log → Ev.finalCb tx ∈ s2.log := by
  unfold onSilence
  split
  case isTrue h => split <;> exact id
  case isFalse h =>
    cases hA : s2.hear.hActive with
    | none => simp [hm, hA]
    | some p =>
      cases hSC : s2.hear.shouldContinueListening with
      | true => simp [hm, hA, hSC, pushLog]
      | false => simp [hm, hA, hSC]

/-- C7.  The listening coordinator restarts from a stale exit event: a
consumer registers (input process 0 spawns); a say request stops process 0
intentionally (speech-started handler: continue flag cleared, process
killed); when speech finishes the coordinator legitimately starts process
2; then the trailing exit event of the stopped process 0 arrives — and the
exit handler, which has no staleness guard, drops the handle to process 2
and spawns process 3.  The stale exit has caused a new listening process
to be started, and two input processes (2 and 3) are now live at once,
violating the claimed discipline (and the one-input-process resource
policy). -/
theorem c7_stale_exit_restarts :
    (let pre := runTrace [(0, .hearCall 2500), (10, .sayCall (some "x") {}), (20, .sayExit 1)]
     let post := step pre 30 (.hearExit 0)
     pre.hearLive = [0, 2] ∧ pre.hear.hActive = some 2 ∧
     pre.log.get? 3 = some (Ev.hearKill 0) ∧ pre.hear.shouldContinueListening = true ∧
     post.log = pre.log ++ [Ev.hearSpawn 3] ∧ post.hearLive = [2, 3] ∧
     post.hear.hActive = some 3) := by
  exact ⟨rfl, rfl, rfl, rfl, rfl, rfl, rfl⟩

/-- C1 (counterexample).  Three say calls, each with a text argument and
none of the interrupt/clear/rude options (the second and third use
`latest`): the queue engine resolves the second call's completion (cid 1)
at the moment of the third call — before the first call's utterance has
completed — so the completions are observed in the order [1, 0, 2], not
in call order, and the second call's text is never serviced at all. -/
theorem c1_fifo_counterexample :
    (let tr : List (Nat × Act) :=
      [(0, .sayCall (some "a") {}), (1, .sayCall (some "1") {latest := true}),
       (2, .sayCall (some "2") {latest := true}), (3, .sayExit 0), (4, .sayExit 1)]
     traceAll actTextNoICR tr = true ∧
     enqueuedCids (runTrace tr).log = [0, 1, 2] ∧
     resolvedCids (runTrace tr).log = [1, 0, 2] ∧
     resolvedCids (runTrace tr).log ≠ List.range 3 ∧
     servicedCids (runTrace tr).log = [0, 2]) := by
  decide

/-- C8 (counterexample).  A consumer is listening (input process 0 is
active); toggling mute on changes nothing but the mute flag: no kill is
issued, the process stays live and the coordinator keeps its handle —
contradicting the claimed terminate-and-go-Idle transition. -/
theorem c8_mute_counterexample :
    (let pre := runTrace [(0, .hearCall 2500)]
     let post := step pre 5 (.setMute true)
     pre.hear.hActive = some 0 ∧ pre.hearLive = [0] ∧
     post.hear.hActive = some 0 ∧ post.hearLive = [0] ∧
     post.hear.muted = true ∧ post.log = pre.log ∧
     (∀ p, Ev.hearKill p ∉ post.log)) := by
  refine ⟨rfl, rfl, rfl, rfl, rfl, rfl, ?_⟩
  intro p
  show Ev.hearKill p ∉ [Ev.hearSpawn 0]
  simp

/-- C8 (amended).  Toggling mute (in either direction) only updates the
mute flag: the active input process is neither terminated nor restarted
and no event is emitted; while muted, an incoming transcript line is
recorded (and the silence timer re-armed) but no streaming callback
fires, and the silence-final path fires no final callback. -/
theorem c8_mute_amended (s : Sys) (t : Nat) (b : Bool) :
    (step s t (.setMute b)).hear.hActive = s.hear.hActive ∧
    (step s t (.setMute b)).hearLive = s.hearLive ∧
    (step s t (.setMute b)).log = s.log ∧
    (step s t (.setMute b)).hear.muted = b ∧
    (s.hear.muted = true →
      ∀ p line, (step s t (.hearLine p line)).log = s.log) ∧
    (s.hear.muted = true →
      ∀ tx, Ev.finalCb tx ∈ (step s t .silenceFire).log → Ev.finalCb tx ∈ s.log) := by
  refine ⟨rfl, rfl, rfl, rfl, ?_, ?_⟩
  · intro hm p line
    simp only [step, hearLineStep]
    split
    case isTrue h => simp [hm]
    case isFalse h => rfl
  · intro hm tx
    simp only [step, silenceFireStep]
    split
    case isTrue h => exact onSilence_muted_nofinal _ (by simpa using hm) tx
    case isFalse h => exact id

/-- Witness for the amended C8 at a concrete listening state. -/
theorem c8_mute_amended_witness :
    (let s := runTrace [(0, .hearCall 2500), (1, .setMute true)]
     s.hear.muted = true ∧
     (step s 2 (.setMute true)).hear.hActive = s.hear.hActive ∧
     (step s 2 (.hearLine 0 "hi")).log = s.log) := by
  refine ⟨rfl, ?_, ?_⟩
  · exact (c8_mute_amended _ 2 true).1
  · exact (c8_mute_amended _ 2 true).2.2.2.2.1 rfl 0 "hi"

/-- An input-process exit with the continue flag and a callback in place
restarts listening with a fresh process. -/
theorem hearExit_restarts (w : Sys) (p t2 : Nat)
    (h1 : p ∈ w.hearLive) (h2 : w.hear.shouldContinueListening = true)
    (h3 : w.hear.hasCallback = true) :
    Ev.hearSpawn w.nextPid ∈ (step w t2 (.hearExit p)).log := by
  have hc1 : (({ w with time := t2 } : Sys).hearLive.contains p) = true := by
    simp [List.elem_iff, h1]
  simp only [step, hearExitStep, hc1, if_true]
  simp [hearStartListening, pushLog, h2, h3]

/-- C10.  When the silence timer elapses with a non-empty accumulated
transcript while mute is active: the say engine's state (including any
open gap, its frames and timers) is untouched — so an open gap can end
only through its own timeout — the transcript is cleared, the input
process is killed exactly when continuation is enabled (its exit will
relaunch the listener), and neither the streaming nor the final callback
fires and no gap-completion signal is issued. -/
theorem c10_muted_silence (s : Sys) (t : Nat)
    (hm : s.hear.muted = true)
    (ht : s.hear.lastTranscribedText ≠ "")
    (hc : s.hear.hasCallback = true)
    (hd : s.hear.silenceDeadline = some t) :
    (step s t .silenceFire).say = s.say ∧
    (step s t .silenceFire).frames = s.frames ∧
    (step s t .silenceFire).gapTimers = s.gapTimers ∧
    (step s t .silenceFire).hear.lastTranscribedText = "" ∧
    (∀ p, s.hear.hActive = some p → s.hear.shouldContinueListening = true →
      (step s t .silenceFire).log = s.log ++ [.hearKill p] ∧
      (p ∈ s.hearLive →
        Ev.hearSpawn s.nextPid ∈ (step (step s t .silenceFire) t (.hearExit p)).log)) ∧
    (s.hear.hActive = none → (step s t .silenceFire).log = s.log) ∧
    (s.hear.shouldContinueListening = false → (step s t .silenceFire).log = s.log) := by
  have hstep : step s t .silenceFire =
      onSilence { s with time := t, hear := { s.hear with silenceDeadline := none } } := by
    simp [step, silenceFireStep, hd]
  refine ⟨?_, ?_, ?_, ?_, ?_, ?_, ?_⟩
  · rw [hstep]
    unfold onSilence
    cases hA : s.hear.hActive <;>
      cases hSC : s.hear.shouldContinueListening <;>
        simp [hm, ht, hc, hA, hSC, pushLog]
  · rw [hstep]
    unfold onSilence
    cases hA : s.hear.hActive <;>
      cases hSC : s.hear.shouldContinueListening <;>
        simp [hm, ht, hc, hA, hSC, pushLog]
  · rw [hstep]
    unfold onSilence
    cases hA : s.hear.hActive <;>
      cases hSC : s.hear.shouldContinueListening <;>
        simp [hm, ht, hc, hA, hSC, pushLog]
  · rw [hstep]
    unfold onSilence
    cases hA : s.hear.hActive <;>
      cases hSC : s.hear.shouldContinueListening <;>
        simp [hm, ht, hc, hA, hSC, pushLog]
  · intro p hA hSC
    constructor
    · rw [hstep]
      unfold onSilence
      simp [hm, ht, hc, hA, hSC, pushLog]
    · intro hlive
      have h1 : p ∈ (step s t .silenceFire).hearLive := by
        rw [hstep]
        unfold onSilence
        simp [hm, ht, hc, hA, hSC, pushLog, hlive]
      have h2 : (step s t .silenceFire).hear.shouldContinueListening = true := by
        rw [hstep]
        unfold onSilence
        simp [hm, ht, hc, hA, hSC, pushLog]
      have h3 : (step s t .silenceFire).hear.hasCallback = true := by
        rw [hstep]
        unfold onSilence
        simp [hm, ht, hc, hA, hSC, pushLog]
      have h4 : (step s t .silenceFire).nextPid = s.nextPid := by
        rw [hstep]
        unfold onSilence
        simp [hm, ht, hc, hA, hSC, pushLog]
      have h5 := hearExit_restarts (step s t .silenceFire) p t h1 h2 h3
      rw [h4] at h5
      exact h5
  · intro hA
    rw [hstep]
    unfold onSilence
    simp [hm, ht, hc, hA, pushLog]
  · intro hSC
    rw [hstep]
    unfold onSilence
    cases hA : s.hear.hActive <;> simp [hm, ht, hc, hA, hSC, pushLog]

/-- Witness for C10: a concrete muted listening session with accumulated
text whose silence timer fires. -/
theorem c10_muted_silence_witness :
    (let s := runTrace [(0, .hearCall 2500), (10, .hearLine 0 "hello there"),
      (11, .setMute true)]
     s.hear.muted = true ∧ s.hear.lastTranscribedText = "hello there" ∧
     s.hear.hasCallback = true ∧ s.hear.silenceDeadline = some 2510 ∧
     (step s 2510 .silenceFire).say = s.say ∧
     (step s 2510 .silenceFire).hear.lastTranscribedText = "" ∧
     (step s 2510 .silenceFire).log = s.log ++ [.hearKill 0]) := by
  refine ⟨rfl, rfl, rfl, rfl, ?_, ?_, ?_⟩
  · exact (c10_muted_silence _ 2510 rfl (by decide) rfl rfl).1
  · exact (c10_muted_silence _ 2510 rfl (by decide) rfl rfl).2.2.2.1
  · exact ((c10_muted_silence _ 2510 rfl (by decide) rfl rfl).2.2.2.2.1 0 rfl rfl).1

theorem emitGapEnd_log (w : Sys) :
    ∃ ext, (emitGapEnd w).log = w.log ++ ext ∧ Ev.gapEndEv ∈ ext := by
  unfold emitGapEnd
  dsimp only
  split
  case isTrue =>
    split
    case h_1 p hp => exact ⟨[.gapEndEv, .hearKill p], by simp [pushLog]⟩
    case h_2 => exact ⟨[.gapEndEv], by simp [pushLog]⟩
  case isFalse => exact ⟨[.gapEndEv], by simp [pushLog]⟩

theorem resumeGapRace_gapEnd (w : Sys) (gid g : Nat)
    (hf : findGapFrame w.frames gid = some g) :
    ∃ ext, (resumeGapRace gid w).log = w.log ++ ext ∧ Ev.gapEndEv ∈ ext := by
  unfold resumeGapRace
  split
  next hnone => rw [hf] at hnone; exact Option.noConfusion hnone
  next gen hsome =>
    rw [hf] at hsome
    injection hsome with hgg
    subst hgg
    obtain ⟨e0, h0, hm0⟩ := emitGapEnd_log { w with frames := removeGapFrame w.frames gid }
    dsimp only
    split
    next hg =>
      obtain ⟨e1, h1⟩ := log_runLoop
        (sayFuel (emitGapEnd { w with frames := removeGapFrame w.frames gid })) g
        (emitGapEnd { w with frames := removeGapFrame w.frames gid })
      refine ⟨e0 ++ e1, ?_, by simp [hm0]⟩
      rw [← h1, h0]
      simp
    next hg =>
      exact ⟨e0, by rw [h0], hm0⟩

theorem emitGapStart_fields (w : Sys) :
    (emitGapStart w).say = w.say ∧ (emitGapStart w).gapTimers = w.gapTimers ∧
    (emitGapStart w).nextGid = w.nextGid ∧ (emitGapStart w).time = w.time ∧
    (emitGapStart w).frames = w.frames ∧
    Ev.gapStartEv ∈ (emitGapStart w).log := by
  cases hreg : w.hear.gapListenersRegistered <;>
    cases hcb : w.hear.hasCallback <;>
      cases hac : w.hear.hActive <;>
        simp [emitGapStart, hearStartListening, pushLog, hreg, hcb, hac]


/-- C6.  The gap turn-taking protocol: (i) invoking the completion signal
while a gap race is open fires gap-ended within that very step; (ii)
invoking it with no open gap is a no-op (only the clock advances); (iii)
opening a gap window (the suspension inside the drain loop after an item,
with a non-zero duration and at least one gap-start subscriber and more
work queued) emits gap-started and arms the gap timer at exactly
now + gapDuration, suspending on the race; (iv) with a zero duration or no
gap-start subscriber the gap collapses: the loop continues immediately,
with no gap event and no waiting window; (v) an armed gap timer fires
exactly at its recorded deadline — at the deadline with the race still
open it fires gap-ended, at any other time the event is a no-op. -/
theorem c6_gap_protocol :
    (∀ (s : Sys) (t gid g : Nat), s.say.gapResolver = some gid →
      findGapFrame s.frames gid = some g →
      ∃ ext, (step s t .signalComplete).log = s.log ++ ext ∧ Ev.gapEndEv ∈ ext) ∧
    (∀ (s : Sys) (t : Nat), s.say.gapResolver = none →
      step s t .signalComplete = { s with time := t }) ∧
    (∀ (gen cid : Nat) (s : Sys), s.say.queueGeneration = gen →
      s.say.gapDuration ≠ 0 → gapStartCount s ≠ 0 →
      (s.say.speechQueue ≠ [] ∨ s.say.pendingInterrupt.isSome = true) →
      ∃ s2, afterSpeakR gen cid s = .susp s2 ∧
        s2.gapTimers = s.gapTimers ++ [(s.nextGid, s.time + s.say.gapDuration)] ∧
        s2.frames = s.frames ++ [.gap gen s.nextGid] ∧
        s2.say.gapResolver = some s.nextGid ∧
        Ev.gapStartEv ∈ s2.log) ∧
    (∀ (gen cid : Nat) (s : Sys), s.say.queueGeneration = gen →
      (s.say.gapDuration = 0 ∨ gapStartCount s = 0) →
      afterSpeakR gen cid s = .next (pushLog s (.resolve cid))) ∧
    (∀ (s : Sys) (t gid d g : Nat),
      s.gapTimers.find? (fun gd => gd.1 == gid) = some (gid, d) →
      (t = d → findGapFrame s.frames gid = some g →
        ∃ ext, (step s t (.gapTimerFire gid)).log = s.log ++ ext ∧ Ev.gapEndEv ∈ ext) ∧
      (t ≠ d → step s t (.gapTimerFire gid) = { s with time := t })) := by
  refine ⟨?_, ?_, ?_, ?_, ?_⟩
  · intro s t gid g hres hfr
    simp only [step, signalGapSpeechComplete]
    rw [show ({ s with time := t } : Sys).say.gapResolver = some gid from hres]
    obtain ⟨ext, he, hm⟩ := resumeGapRace_gapEnd
      { s with time := t, say := { s.say with gapResolver := none } } gid g hfr
    exact ⟨ext, he, hm⟩
  · intro s t hres
    simp [step, signalGapSpeechComplete, hres]
  · intro gen cid s hgen hgd hgc hwork
    have h1 : ((pushLog s (.resolve cid)).say.queueGeneration == gen) = true := by
      simp [pushLog, hgen]
    have h2 : (!(pushLog s (.resolve cid)).say.speechQueue.isEmpty
        || (pushLog s (.resolve cid)).say.pendingInterrupt.isSome) = true := by
      rcases hwork with hq | hp
      · simp [pushLog, hq]
      · simp [pushLog, hp]
    have hx : (gapStartCount (pushLog s (.resolve cid)) == 0) = false := by
      show (gapStartCount s == 0) = false
      simp [hgc]
    have hgd2 : ((pushLog s (.resolve cid)).say.gapDuration == 0) = false := by
      show (s.say.gapDuration == 0) = false
      simp [hgd]
    have h3 : ((pushLog s (.resolve cid)).say.gapDuration == 0
        || gapStartCount (pushLog s (.resolve cid)) == 0) = false := by
      rw [hgd2, hx]
      rfl
    obtain ⟨ha, hb, hcn, hd2, he2, hf2⟩ := emitGapStart_fields (pushLog s (.resolve cid))
    unfold afterSpeakR
    simp only [h1, h2, h3, Bool.not_true, if_false, if_true]
    refine ⟨_, rfl, ?_, ?_, ?_, ?_⟩
    · show (emitGapStart (pushLog s (.resolve cid))).gapTimers ++ _ = _
      rw [hb, hcn, hd2, ha]
      rfl
    · show (emitGapStart (pushLog s (.resolve cid))).frames ++ _ = _
      rw [he2, hcn]
      rfl
    · show some (emitGapStart (pushLog s (.resolve cid))).nextGid = some s.nextGid
      rw [hcn]
      rfl
    · exact hf2
  · intro gen cid s hgen hcol
    have h1 : ((pushLog s (.resolve cid)).say.queueGeneration == gen) = true := by
      simp [pushLog, hgen]
    have h3 : ((pushLog s (.resolve cid)).say.gapDuration == 0
        || gapStartCount (pushLog s (.resolve cid)) == 0) = true := by
      rcases hcol with hz | hz
      · have hq : ((pushLog s (.resolve cid)).say.gapDuration == 0) = true := by
          show (s.say.gapDuration == 0) = true
          simp [hz]
        rw [hq, Bool.true_or]
      · have hq : (gapStartCount (pushLog s (.resolve cid)) == 0) = true := by
          show (gapStartCount s == 0) = true
          simp [hz]
        rw [hq, Bool.or_true]
    unfold afterSpeakR
    simp only [h1, h3, Bool.not_true, Bool.false_eq_true, if_false]
    split <;> rfl
  · intro s t gid d g hfind
    constructor
    · intro ht hfr
      simp only [step, gapTimerStep]
      rw [show ({ s with time := t } : Sys).gapTimers.find? (fun gd => gd.1 == gid) =
        some (gid, d) from hfind]
      dsimp only
      rw [show (t == ((gid, d) : Nat × Nat).2) = true by simp [ht]]
      simp only [if_true]
      obtain ⟨ext, he, hm⟩ := resumeGapRace_gapEnd
        { s with
          time := t
          gapTimers := (({ s with time := t } : Sys).gapTimers.filter (fun x => !(x.1 == gid))) }
        gid g hfr
      exact ⟨ext, he, hm⟩
    · intro ht
      simp only [step, gapTimerStep]
      rw [show ({ s with time := t } : Sys).gapTimers.find? (fun gd => gd.1 == gid) =
        some (gid, d) from hfind]
      simp [ht]

/-- Witness for C6 at a concrete open gap (gap 0 opened at time 20 for
2000 ms between two queued utterances). -/
theorem c6_gap_protocol_witness :
    (let s := runTrace [(0, .hearCall 2500), (10, .sayCall (some "one") {}),
      (11, .sayCall (some "two") {}), (20, .sayExit 1)]
     s.say.gapResolver = some 0 ∧ findGapFrame s.frames 0 = some 1 ∧
     s.gapTimers = [(0, 2020)] ∧
     (∃ ext, (step s 25 .signalComplete).log = s.log ++ ext ∧ Ev.gapEndEv ∈ ext) ∧
     (∃ ext, (step s 2020 (.gapTimerFire 0)).log = s.log ++ ext ∧ Ev.gapEndEv ∈ ext) ∧
     step s 1999 (.gapTimerFire 0) = { s with time := 1999 }) := by
  refine ⟨rfl, rfl, rfl, ?_, ?_, ?_⟩
  · exact c6_gap_protocol.1 _ 25 0 1 rfl rfl
  · exact (c6_gap_protocol.2.2.2.2 _ 2020 0 2020 1 (by rfl)).1 rfl (by rfl)
  · exact (c6_gap_protocol.2.2.2.2 _ 1999 0 2020 1 (by rfl)).2 (by decide)

theorem resolveEntries_say (s : Sys) (es : List Entry) :
    (resolveEntries s es).say = s.say := by
  induction es generalizing s with
  | nil => rfl
  | cons e rest ih => simpa [pushLog] using ih (pushLog s (.resolve e.cid))

theorem hearStartListening_say (w : Sys) : (hearStartListening w).say = w.say := rfl

theorem emitStart_say (w : Sys) : (emitStart w).say = w.say := by
  unfold emitStart hearStopActive
  dsimp only
  split <;> rfl

theorem emitFinish_say (w : Sys) : (emitFinish w).say = w.say := by
  unfold emitFinish
  dsimp only
  split
  case isTrue => rfl
  case isFalse => rfl

theorem finishUp_not_stuck (gen : Nat) (s : Sys) (hgen : s.say.queueGeneration = gen) :
    ¬ stuckSay (finishUp gen s).say := by
  unfold finishUp
  rw [if_pos (by simp [hgen])]
  rw [emitFinish_say]
  intro hst
  exact Bool.false_ne_true hst.1

theorem afterSpeakR_susp_not_stuck (gen cid : Nat) (w : Sys)
    (hgen : w.say.queueGeneration = gen) :
    ∀ s3, afterSpeakR gen cid w = .susp s3 → ¬ stuckSay s3.say := by
  intro s3 h
  unfold afterSpeakR at h
  dsimp only at h
  rw [if_neg (by simp [pushLog, hgen])] at h
  split at h
  case isTrue hmore =>
    split at h
    case isTrue => exact Res.noConfusion h
    case isFalse =>
      injection h with h2
      subst h2
      intro hst
      have hq := hst.2.1
      have hp := hst.2.2.1
      have hsay := (emitGapStart_fields (pushLog w (.resolve cid))).1
      simp only [hsay] at hq hp
      simp only [pushLog] at hq hp hmore
      simp [hq, hp] at hmore
  case isFalse hmore => exact Res.noConfusion h

theorem afterSpeakR_next_say (gen cid : Nat) (w : Sys) :
    ∀ s3, afterSpeakR gen cid w = .next s3 → s3.say = w.say := by
  intro s3 h
  unfold afterSpeakR at h
  dsimp only at h
  split at h
  case isTrue => exact Res.noConfusion h
  case isFalse =>
    split at h
    case isTrue =>
      split at h
      case isTrue =>
        injection h with h2
        subst h2
        rfl
      case isFalse => exact Res.noConfusion h
    case isFalse =>
      injection h with h2
      subst h2
      rfl

theorem speakStepR_susp_not_stuck (gen cid : Nat) (tx : String) (s : Sys)
    (hgen : s.say.queueGeneration = gen) :
    ∀ s3, speakStepR gen cid tx s = .susp s3 → ¬ stuckSay s3.say := by
  intro s3 h
  unfold speakStepR at h
  dsimp only at h
  split at h
  case isTrue hred =>
    split at h
    case h_1 hnone =>
      refine afterSpeakR_susp_not_stuck gen cid _ ?_ s3 h
      simpa [pushLog] using hgen
    case h_2 tts hred2 =>
      injection h with h2
      subst h2
      intro hst
      exact Option.noConfusion hst.2.2.2
  case isFalse hred =>
    injection h with h2
    subst h2
    intro hst
    exact Option.noConfusion hst.2.2.2

theorem speakStepR_next_say (gen cid : Nat) (tx : String) (s : Sys) :
    ∀ s3, speakStepR gen cid tx s = .next s3 →
      s3.say.speechQueue = s.say.speechQueue ∧
      s3.say.pendingInterrupt = s.say.pendingInterrupt ∧
      s3.say.queueGeneration = s.say.queueGeneration := by
  intro s3 h
  unfold speakStepR at h
  dsimp only at h
  split at h
  case isTrue hred =>
    split at h
    case h_1 hnone =>
      have h2 := afterSpeakR_next_say _ _ _ s3 h
      rw [h2]
      exact ⟨rfl, rfl, rfl⟩
    case h_2 tts hred2 => exact Res.noConfusion h
  case isFalse hred => exact Res.noConfusion h

theorem runLoop_not_stuck : ∀ (fuel gen : Nat) (s : Sys),
    s.say.queueGeneration = gen →
    s.say.speechQueue.length + (if s.say.pendingInterrupt.isSome then 1 else 0) < fuel →
    ¬ stuckSay (runLoop fuel gen s).say := by
  intro fuel
  induction fuel with
  | zero =>
    intro gen s hgen hm
    exact absurd hm (Nat.not_lt_zero _)
  | succ fuel ih =>
    intro gen s hgen hm
    unfold runLoop
    dsimp only
    split
    case isTrue hempty => exact finishUp_not_stuck gen s hgen
    case isFalse hne =>
      rw [if_neg (by simp [hgen])]
      split
      case h_1 pi hpi =>
        split
        next s3 hs3 =>
          refine speakStepR_susp_not_stuck gen pi.cid pi.text _ ?_ s3 hs3
          split
          · dsimp only
            rw [resolveEntries_say]
            exact hgen
          · exact hgen
        next s3 hs3 =>
          obtain ⟨hq3, hp3, hg3⟩ := speakStepR_next_say _ _ _ _ s3 hs3
          refine ih gen s3 ?_ ?_
          · rw [hg3]
            split
            · dsimp only
              rw [resolveEntries_say]
              exact hgen
            · exact hgen
          · rw [hq3, hp3]
            split at hm
            next hps =>
              split
              · dsimp only
                rw [resolveEntries_say]
                simp
                omega
              · dsimp only
                simp
                omega
            next hps => simp [hpi] at hps
      case h_2 hpnone =>
        split
        case h_1 hq0 =>
          intro hst
          exact hne (by simp [hq0, hpnone])
        case h_2 e rest hq0 =>
          split
          next s3 hs3 =>
            refine speakStepR_susp_not_stuck gen e.cid e.text _ ?_ s3 hs3
            exact hgen
          next s3 hs3 =>
            obtain ⟨hq3, hp3, hg3⟩ := speakStepR_next_say _ _ _ _ s3 hs3
            refine ih gen s3 ?_ ?_
            · rw [hg3]
              exact hgen
            · rw [hq3, hp3]
              dsimp only
              rw [hq0] at hm
              simp only [List.length_cons] at hm
              simp [hpnone]
              omega

theorem processQueue_not_stuck (s : Sys) (hpq : s.say.processingQueue = false) :
    ¬ stuckSay (processQueue s).say := by
  unfold processQueue
  rw [if_neg (by simp [hpq])]
  refine runLoop_not_stuck _ _ _ ?_ ?_
  · rw [emitStart_say]
  · simp only [sayFuel, emitStart_say]
    split <;> omega

theorem sayRude_not_stuck (s : Sys) (tx : String) (opts : SayOpts) :
    ¬ stuckSay (sayRude s tx opts).say := by
  unfold sayRude
  dsimp only
  refine processQueue_not_stuck _ ?_
  repeat' split
  all_goals rfl

theorem sayText_not_stuck (s : Sys) (tx : String) (opts : SayOpts)
    (hpq : s.say.processingQueue = false) :
    ¬ stuckSay (sayText s tx opts).say := by
  unfold sayText
  dsimp only
  split
  · split
    · exact sayRude_not_stuck _ _ _
    · cases hpi : s.say.pendingInterrupt <;> simp only [hpi]
      all_goals
        rw [if_pos]
        · exact processQueue_not_stuck _ hpq
        · simp [pushLog, hpq]
  · split
    · cases hle : s.say.latestEntry <;> simp only [hle]
      · exact processQueue_not_stuck _ hpq
      · rw [if_pos]
        · exact processQueue_not_stuck _ hpq
        · simp [pushLog, hpq]
    · exact processQueue_not_stuck _ hpq
/-- C9: self-healing invariant repair.  Whenever a non-empty, non-halt
`say()` request observes the stuck state (processing flag set with an
empty queue, no pending interrupt and no active process), the check at
the top of `say()` resets `processingQueue` and `speaking` to false, the
request then proceeds from that repaired state, and the state after the
request is never stuck again. -/
theorem c9_self_healing (s : Sys) (t : Nat) (tx : String) (opts : SayOpts)
    (hst : stuckSay s.say) (htx : tx ≠ "") :
    healSay { s with time := t } =
      { s with time := t, say := { s.say with processingQueue := false, speaking := false } } ∧
    step s t (.sayCall (some tx) opts) =
      sayText { s with time := t, say := { s.say with processingQueue := false, speaking := false } } tx opts ∧
    ¬ stuckSay (step s t (.sayCall (some tx) opts)).say := by
  obtain ⟨hpq, hq, hp, ha⟩ := hst
  have hheal : healSay { s with time := t } =
      { s with time := t, say := { s.say with processingQueue := false, speaking := false } } := by
    unfold healSay
    rw [if_pos]
    simp [hpq, hq, hp, ha]
  have hne : (tx == "") = false := by simp [htx]
  have hstep : step s t (.sayCall (some tx) opts) =
      sayText { s with time := t, say := { s.say with processingQueue := false, speaking := false } } tx opts := by
    simp only [step, hne, Bool.false_eq_true, if_false, hheal]
  refine ⟨hheal, hstep, ?_⟩
  rw [hstep]
  exact sayText_not_stuck _ _ _ rfl

/-- Witness for C9 at a concrete stuck state. -/
theorem c9_self_healing_witness :
    stuckSay { initSys with say := { initSys.say with processingQueue := true } }.say ∧
    ¬ stuckSay (step { initSys with say := { initSys.say with processingQueue := true } } 5
        (.sayCall (some "hello") ⟨false, false, false, false⟩)).say :=
  ⟨⟨rfl, rfl, rfl, rfl⟩,
   (c9_self_healing { initSys with say := { initSys.say with processingQueue := true } } 5
      "hello" ⟨false, false, false, false⟩ ⟨rfl, rfl, rfl, rfl⟩ (by decide)).2.2⟩
/-- C2: rude interrupt. -/
theorem c2_rude_interrupt (A B : String) (hA : (A == "") = false) (hB : (B == "") = false)
    (pre w1 w : Sys)
    (hpre : pre = runTrace [(0, .setGapDuration 0), (0, .setRepeatReduction false),
      (0, .sayCall (some A) ⟨false, false, false, false⟩)])
    (hw1 : w1 = step pre 1 (.sayCall (some B) ⟨false, false, true, false⟩))
    (hw : w = runFrom w1 [(2, .sayExit 0), (3, .sayExit 1), (4, .sayExit 2)]) :
    pre.say.activeProcess = some 0 ∧
    pre.say.lastSpoken = A ∧
    w1.log = pre.log ++ [.kill 0, .enq 1 B, .enq 2 A, .startEv, .serviced 1 B,
      .launch 1 1 B (calculateRate B [⟨2, A⟩])] ∧
    w1.say.speechQueue = [⟨2, A⟩] ∧
    launchTexts w.log = [A, B, A] ∧
    resolvedCids w.log = [0, 1, 2] ∧
    w.say.speechQueue = [] ∧
    w.say.speaking = false := by
  subst hw hw1 hpre
  have e1 : runTrace [(0, .setGapDuration 0), (0, .setRepeatReduction false),
      (0, .sayCall (some A) ⟨false, false, false, false⟩)] =
      { say := { activeProcess := some 0
                 lastSpoken := A
                 speaking := true
                 repeatReductionEnabled := false
                 gapDuration := 0
                 gapResolver := none
                 queueGeneration := 1
                 speechQueue := []
                 processingQueue := true
                 latestEntry := none
                 pendingInterrupt := none }
        hear := initSys.hear
        frames := [.speak 1 0 0]
        gapTimers := []
        sayLive := [0]
        hearLive := []
        externalGapStartListeners := 0
        time := 0
        nextCid := 1
        nextPid := 1
        nextGid := 0
        log := [.enq 0 A, .startEv, .serviced 0 A, .launch 0 0 A (calculateRate A [])] } := by
    simp only [runTrace, List.foldl, step, hA]
    rfl
  rw [e1]
  have e2a : step
      { say := { activeProcess := some 0
                 lastSpoken := A
                 speaking := true
                 repeatReductionEnabled := false
                 gapDuration := 0
                 gapResolver := none
                 queueGeneration := 1
                 speechQueue := []
                 processingQueue := true
                 latestEntry := none
                 pendingInterrupt := none }
        hear := initSys.hear
        frames := [.speak 1 0 0]
        gapTimers := []
        sayLive := [0]
        hearLive := []
        externalGapStartListeners := 0
        time := 0
        nextCid := 1
        nextPid := 1
        nextGid := 0
        log := [.enq 0 A, .startEv, .serviced 0 A, .launch 0 0 A (calculateRate A [])] }
      1 (.sayCall (some B) ⟨false, false, true, false⟩) =
      sayText
      { say := { activeProcess := some 0
                 lastSpoken := A
                 speaking := true
                 repeatReductionEnabled := false
                 gapDuration := 0
                 gapResolver := none
                 queueGeneration := 1
                 speechQueue := []
                 processingQueue := true
                 latestEntry := none
                 pendingInterrupt := none }
        hear := initSys.hear
        frames := [.speak 1 0 0]
        gapTimers := []
        sayLive := [0]
        hearLive := []
        externalGapStartListeners := 0
        time := 1
        nextCid := 1
        nextPid := 1
        nextGid := 0
        log := [.enq 0 A, .startEv, .serviced 0 A, .launch 0 0 A (calculateRate A [])] }
      B ⟨false, false, true, false⟩ := by
    simp only [step, hB]
    rfl
  rw [e2a]
  have e2 : sayText
      { say := { activeProcess := some 0
                 lastSpoken := A
                 speaking := true
                 repeatReductionEnabled := false
                 gapDuration := 0
                 gapResolver := none
                 queueGeneration := 1
                 speechQueue := []
                 processingQueue := true
                 latestEntry := none
                 pendingInterrupt := none }
        hear := initSys.hear
        frames := [.speak 1 0 0]
        gapTimers := []
        sayLive := [0]
        hearLive := []
        externalGapStartListeners := 0
        time := 1
        nextCid := 1
        nextPid := 1
        nextGid := 0
        log := [.enq 0 A, .startEv, .serviced 0 A, .launch 0 0 A (calculateRate A [])] }
      B ⟨false, false, true, false⟩ =
      { say := { activeProcess := some 1
                 lastSpoken := B
                 speaking := true
                 repeatReductionEnabled := false
                 gapDuration := 0
                 gapResolver := none
                 queueGeneration := 2
                 speechQueue := [⟨2, A⟩]
                 processingQueue := true
                 latestEntry := none
                 pendingInterrupt := none }
        hear := initSys.hear
        frames := [.speak 1 0 0, .speak 2 1 1]
        gapTimers := []
        sayLive := [0, 1]
        hearLive := []
        externalGapStartListeners := 0
        time := 1
        nextCid := 3
        nextPid := 2
        nextGid := 0
        log := [.enq 0 A, .startEv, .serviced 0 A, .launch 0 0 A (calculateRate A []),
          .kill 0, .enq 1 B, .enq 2 A, .startEv, .serviced 1 B,
          .launch 1 1 B (calculateRate B [⟨2, A⟩])] } := by
    simp only [sayText, sayRude, hA]
    rfl
  rw [e2]
  have e3 : runFrom
      { say := { activeProcess := some 1
                 lastSpoken := B
                 speaking := true
                 repeatReductionEnabled := false
                 gapDuration := 0
                 gapResolver := none
                 queueGeneration := 2
                 speechQueue := [⟨2, A⟩]
                 processingQueue := true
                 latestEntry := none
                 pendingInterrupt := none }
        hear := initSys.hear
        frames := [.speak 1 0 0, .speak 2 1 1]
        gapTimers := []
        sayLive := [0, 1]
        hearLive := []
        externalGapStartListeners := 0
        time := 1
        nextCid := 3
        nextPid := 2
        nextGid := 0
        log := [.enq 0 A, .startEv, .serviced 0 A, .launch 0 0 A (calculateRate A []),
          .kill 0, .enq 1 B, .enq 2 A, .startEv, .serviced 1 B,
          .launch 1 1 B (calculateRate B [⟨2, A⟩])] }
      [(2, .sayExit 0), (3, .sayExit 1), (4, .sayExit 2)] =
      { say := { activeProcess := none
                 lastSpoken := A
                 speaking := false
                 repeatReductionEnabled := false
                 gapDuration := 0
                 gapResolver := none
                 queueGeneration := 2
                 speechQueue := []
                 processingQueue := false
                 latestEntry := none
                 pendingInterrupt := none }
        hear := initSys.hear
        frames := []
        gapTimers := []
        sayLive := []
        hearLive := []
        externalGapStartListeners := 0
        time := 4
        nextCid := 3
        nextPid := 3
        nextGid := 0
        log := [.enq 0 A, .startEv, .serviced 0 A, .launch 0 0 A (calculateRate A []),
          .kill 0, .enq 1 B, .enq 2 A, .startEv, .serviced 1 B,
          .launch 1 1 B (calculateRate B [⟨2, A⟩]),
          .resolve 0, .resolve 1, .serviced 2 A, .launch 2 2 A (calculateRate A []),
          .resolve 2, .finishEv] } := rfl
  rw [e3]
  exact ⟨rfl, rfl, rfl, rfl, rfl, rfl, rfl, rfl⟩
/-- Witness for C2 at concrete texts. -/
theorem c2_rude_interrupt_witness :
    ("aaa" == "") = false ∧ ("bbb" == "") = false ∧
    launchTexts (runFrom
      (step (runTrace [(0, .setGapDuration 0), (0, .setRepeatReduction false),
          (0, .sayCall (some "aaa") ⟨false, false, false, false⟩)])
        1 (.sayCall (some "bbb") ⟨false, false, true, false⟩))
      [(2, .sayExit 0), (3, .sayExit 1), (4, .sayExit 2)]).log = ["aaa", "bbb", "aaa"] :=
  ⟨rfl, rfl,
   (c2_rude_interrupt "aaa" "bbb" rfl rfl _ _ _ rfl rfl rfl).2.2.2.2.1⟩
/-- C3: latest collapse. -/
theorem c3_latest_collapse (X A1 A2 : String) (hX : (X == "") = false)
    (hA1 : (A1 == "") = false) (hA2 : (A2 == "") = false)
    (pre w1 w2 w : Sys)
    (hpre : pre = runTrace [(0, .setGapDuration 0), (0, .setRepeatReduction false),
      (0, .sayCall (some X) ⟨false, false, false, false⟩)])
    (hw1 : w1 = step pre 1 (.sayCall (some A1) ⟨false, false, false, true⟩))
    (hw2 : w2 = step w1 2 (.sayCall (some A2) ⟨false, false, false, true⟩))
    (hw : w = runFrom w2 [(3, .sayExit 0), (4, .sayExit 1)]) :
    w1.say.speechQueue = [⟨1, A1⟩] ∧
    w1.say.latestEntry = some 1 ∧
    w2.log = w1.log ++ [.resolve 1, .enq 2 A2] ∧
    w2.say.speechQueue = [⟨2, A2⟩] ∧
    w2.say.latestEntry = some 2 ∧
    servicedCids w.log = [0, 2] ∧
    launchTexts w.log = [X, A2] ∧
    resolvedCids w.log = [1, 0, 2] ∧
    w.say.speechQueue = [] ∧
    w.say.speaking = false := by
  subst hw hw2 hw1 hpre
  have e1 : runTrace [(0, .setGapDuration 0), (0, .setRepeatReduction false),
      (0, .sayCall (some X) ⟨false, false, false, false⟩)] =
      { say := { activeProcess := some 0
                 lastSpoken := X
                 speaking := true
                 repeatReductionEnabled := false
                 gapDuration := 0
                 gapResolver := none
                 queueGeneration := 1
                 speechQueue := []
                 processingQueue := true
                 latestEntry := none
                 pendingInterrupt := none }
        hear := initSys.hear
        frames := [.speak 1 0 0]
        gapTimers := []
        sayLive := [0]
        hearLive := []
        externalGapStartListeners := 0
        time := 0
        nextCid := 1
        nextPid := 1
        nextGid := 0
        log := [.enq 0 X, .startEv, .serviced 0 X, .launch 0 0 X (calculateRate X [])] } := by
    simp only [runTrace, List.foldl, step, hX]
    rfl
  rw [e1]
  have e2 : step
      { say := { activeProcess := some 0
                 lastSpoken := X
                 speaking := true
                 repeatReductionEnabled := false
                 gapDuration := 0
                 gapResolver := none
                 queueGeneration := 1
                 speechQueue := []
                 processingQueue := true
                 latestEntry := none
                 pendingInterrupt := none }
        hear := initSys.hear
        frames := [.speak 1 0 0]
        gapTimers := []
        sayLive := [0]
        hearLive := []
        externalGapStartListeners := 0
        time := 0
        nextCid := 1
        nextPid := 1
        nextGid := 0
        log := [.enq 0 X, .startEv, .serviced 0 X, .launch 0 0 X (calculateRate X [])] }
      1 (.sayCall (some A1) ⟨false, false, false, true⟩) =
      { say := { activeProcess := some 0
                 lastSpoken := X
                 speaking := true
                 repeatReductionEnabled := false
                 gapDuration := 0
                 gapResolver := none
                 queueGeneration := 1
                 speechQueue := [⟨1, A1⟩]
                 processingQueue := true
                 latestEntry := some 1
                 pendingInterrupt := none }
        hear := initSys.hear
        frames := [.speak 1 0 0]
        gapTimers := []
        sayLive := [0]
        hearLive := []
        externalGapStartListeners := 0
        time := 1
        nextCid := 2
        nextPid := 1
        nextGid := 0
        log := [.enq 0 X, .startEv, .serviced 0 X, .launch 0 0 X (calculateRate X []), .enq 1 A1] } := by
    simp only [step, hA1]
    rfl
  rw [e2]
  have e3 : step
      { say := { activeProcess := some 0
                 lastSpoken := X
                 speaking := true
                 repeatReductionEnabled := false
                 gapDuration := 0
                 gapResolver := none
                 queueGeneration := 1
                 speechQueue := [⟨1, A1⟩]
                 processingQueue := true
                 latestEntry := some 1
                 pendingInterrupt := none }
        hear := initSys.hear
        frames := [.speak 1 0 0]
        gapTimers := []
        sayLive := [0]
        hearLive := []
        externalGapStartListeners := 0
        time := 1
        nextCid := 2
        nextPid := 1
        nextGid := 0
        log := [.enq 0 X, .startEv, .serviced 0 X, .launch 0 0 X (calculateRate X []), .enq 1 A1] }
      2 (.sayCall (some A2) ⟨false, false, false, true⟩) =
      { say := { activeProcess := some 0
                 lastSpoken := X
                 speaking := true
                 repeatReductionEnabled := false
                 gapDuration := 0
                 gapResolver := none
                 queueGeneration := 1
                 speechQueue := [⟨2, A2⟩]
                 processingQueue := true
                 latestEntry := some 2
                 pendingInterrupt := none }
        hear := initSys.hear
        frames := [.speak 1 0 0]
        gapTimers := []
        sayLive := [0]
        hearLive := []
        externalGapStartListeners := 0
        time := 2
        nextCid := 3
        nextPid := 1
        nextGid := 0
        log := [.enq 0 X, .startEv, .serviced 0 X, .launch 0 0 X (calculateRate X []),
        .enq 1 A1, .resolve 1, .enq 2 A2] } := by
    simp only [step, hA2]
    rfl
  rw [e3]
  have e4 : runFrom
      { say := { activeProcess := some 0
                 lastSpoken := X
                 speaking := true
                 repeatReductionEnabled := false
                 gapDuration := 0
                 gapResolver := none
                 queueGeneration := 1
                 speechQueue := [⟨2, A2⟩]
                 processingQueue := true
                 latestEntry := some 2
                 pendingInterrupt := none }
        hear := initSys.hear
        frames := [.speak 1 0 0]
        gapTimers := []
        sayLive := [0]
        hearLive := []
        externalGapStartListeners := 0
        time := 2
        nextCid := 3
        nextPid := 1
        nextGid := 0
        log := [.enq 0 X, .startEv, .serviced 0 X, .launch 0 0 X (calculateRate X []),
        .enq 1 A1, .resolve 1, .enq 2 A2] }
      [(3, .sayExit 0), (4, .sayExit 1)] =
      { say := { activeProcess := none
                 lastSpoken := A2
                 speaking := false
                 repeatReductionEnabled := false
                 gapDuration := 0
                 gapResolver := none
                 queueGeneration := 1
                 speechQueue := []
                 processingQueue := false
                 latestEntry := none
                 pendingInterrupt := none }
        hear := initSys.hear
        frames := []
        gapTimers := []
        sayLive := []
        hearLive := []
        externalGapStartListeners := 0
        time := 4
        nextCid := 3
        nextPid := 2
        nextGid := 0
        log := [.enq 0 X, .startEv, .serviced 0 X, .launch 0 0 X (calculateRate X []),
        .enq 1 A1, .resolve 1, .enq 2 A2, .resolve 0, .serviced 2 A2,
        .launch 1 2 A2 (calculateRate A2 []), .resolve 2, .finishEv] } := rfl
  rw [e4]
  exact ⟨rfl, rfl, rfl, rfl, rfl, rfl, rfl, rfl, rfl, rfl⟩

/-- Witness for C3 at concrete texts. -/
theorem c3_latest_collapse_witness :
    ("xxx" == "") = false ∧
    servicedCids (runFrom
      (step (step (runTrace [(0, .setGapDuration 0), (0, .setRepeatReduction false),
          (0, .sayCall (some "xxx") ⟨false, false, false, false⟩)])
        1 (.sayCall (some "one") ⟨false, false, false, true⟩))
        2 (.sayCall (some "two") ⟨false, false, false, true⟩))
      [(3, .sayExit 0), (4, .sayExit 1)]).log = [0, 2] :=
  ⟨rfl,
   (c3_latest_collapse "xxx" "one" "two" rfl rfl rfl _ _ _ _ rfl rfl rfl rfl).2.2.2.2.2.1⟩
theorem sayAgrees_rfl (s : Sys) : sayAgrees s s :=
  ⟨rfl, rfl, rfl, rfl, [], by simp, rfl, rfl, rfl⟩

theorem sayAgrees_of_eq {s s2 : Sys} (h1 : s2.say = s.say) (h2 : s2.frames = s.frames)
    (h3 : s2.sayLive = s.sayLive) (h4 : s2.nextCid = s.nextCid) (h5 : s2.log = s.log) :
    sayAgrees s s2 :=
  ⟨h1, h2, h3, h4, [], by simp [h5], rfl, rfl, rfl⟩

theorem sayAgrees_trans {a b c : Sys} (h1 : sayAgrees a b) (h2 : sayAgrees b c) :
    sayAgrees a c := by
  obtain ⟨e1, e2, e3, e4, j1, hj1, r1, v1, q1⟩ := h1
  obtain ⟨f1, f2, f3, f4, j2, hj2, r2, v2, q2⟩ := h2
  refine ⟨f1.trans e1, f2.trans e2, f3.trans e3, f4.trans e4, j1 ++ j2, ?_, ?_, ?_, ?_⟩
  · rw [hj2, hj1, List.append_assoc]
  · simp [r1, r2]
  · simp [v1, v2]
  · simp [q1, q2]

theorem sayAgrees_pushLog (s : Sys) (e : Ev) (h1 : resolvedCids [e] = [])
    (h2 : servicedCids [e] = []) (h3 : enqueuedCids [e] = []) :
    sayAgrees s (pushLog s e) :=
  ⟨rfl, rfl, rfl, rfl, [e], rfl, h1, h2, h3⟩

theorem sayAgrees_hearStartListening (s : Sys) : sayAgrees s (hearStartListening s) := by
  unfold hearStartListening
  dsimp only
  exact ⟨rfl, rfl, rfl, rfl, _, rfl, rfl, rfl, rfl⟩

theorem sayAgrees_hearStopActive (s : Sys) : sayAgrees s (hearStopActive s) := by
  unfold hearStopActive
  split
  · exact ⟨rfl, rfl, rfl, rfl, _, rfl, rfl, rfl, rfl⟩
  · exact sayAgrees_rfl s

theorem sayAgrees_emitStart (s : Sys) : sayAgrees s (emitStart s) :=
  sayAgrees_trans (sayAgrees_pushLog s .startEv rfl rfl rfl) (sayAgrees_hearStopActive _)

theorem sayAgrees_emitFinish (s : Sys) : sayAgrees s (emitFinish s) := by
  unfold emitFinish
  dsimp only
  refine sayAgrees_trans (sayAgrees_pushLog s .finishEv rfl rfl rfl) ?_
  split
  · exact sayAgrees_trans (sayAgrees_of_eq rfl rfl rfl rfl rfl) (sayAgrees_hearStartListening _)
  · exact sayAgrees_of_eq rfl rfl rfl rfl rfl

theorem sayAgrees_emitGapStart (s : Sys) : sayAgrees s (emitGapStart s) := by
  unfold emitGapStart
  dsimp only
  refine sayAgrees_trans (sayAgrees_pushLog s .gapStartEv rfl rfl rfl) ?_
  split
  · split
    · exact sayAgrees_trans (sayAgrees_of_eq rfl rfl rfl rfl rfl)
        (sayAgrees_hearStartListening _)
    · exact sayAgrees_of_eq rfl rfl rfl rfl rfl
  · exact sayAgrees_rfl _

theorem sayAgrees_hearCallStep (ms : Nat) (s : Sys) : sayAgrees s (hearCallStep ms s) := by
  unfold hearCallStep
  dsimp only
  split
  · split
    · exact sayAgrees_of_eq rfl rfl rfl rfl rfl
    · exact sayAgrees_of_eq rfl rfl rfl rfl rfl
  · split
    · exact sayAgrees_of_eq rfl rfl rfl rfl rfl
    · exact sayAgrees_trans (sayAgrees_of_eq rfl rfl rfl rfl rfl)
        (sayAgrees_hearStartListening _)

theorem sayAgrees_hearStopStep (s : Sys) : sayAgrees s (hearStopStep s) := by
  unfold hearStopStep
  dsimp only
  split
  · exact ⟨rfl, rfl, rfl, rfl, _, rfl, rfl, rfl, rfl⟩
  · exact sayAgrees_of_eq rfl rfl rfl rfl rfl

theorem sayAgrees_hearLineStep (pid : Nat) (line : String) (s : Sys) :
    sayAgrees s (hearLineStep pid line s) := by
  unfold hearLineStep
  dsimp only
  split
  · split
    · exact ⟨rfl, rfl, rfl, rfl, _, rfl, rfl, rfl, rfl⟩
    · exact sayAgrees_of_eq rfl rfl rfl rfl rfl
  · exact sayAgrees_rfl s

theorem sayAgrees_hearExitStep (pid : Nat) (s : Sys) :
    sayAgrees s (hearExitStep pid s) := by
  unfold hearExitStep
  dsimp only
  split
  · split
    · exact sayAgrees_trans (sayAgrees_of_eq rfl rfl rfl rfl rfl)
        (sayAgrees_hearStartListening _)
    · exact sayAgrees_of_eq rfl rfl rfl rfl rfl
  · exact sayAgrees_rfl s
theorem PlainInv_transfer {s s2 : Sys} (hA : sayAgrees s s2) (h : PlainInv s) :
    PlainInv s2 := by
  obtain ⟨hsay, hfr, hlive, hcid, extra, hlog, hr, hv, hq⟩ := hA
  have L1 : resolvedCids s2.log = resolvedCids s.log := by
    rw [hlog, resolvedCids_append, hr, List.append_nil]
  have L2 : servicedCids s2.log = servicedCids s.log := by
    rw [hlog, servicedCids_append, hv, List.append_nil]
  have L3 : enqueuedCids s2.log = enqueuedCids s.log := by
    rw [hlog, enqueuedCids_append, hq, List.append_nil]
  obtain ⟨⟨f1, f2, f3, f4, f5⟩, p1, p2, p3, shape⟩ := h
  refine ⟨⟨?_, ?_, ?_, ?_, ?_⟩, ?_, ?_, ?_, ?_⟩
  · rw [L3, hcid]; exact f1
  · rw [L2]; exact f2
  · rw [L1]; exact f3
  · rw [L1, L2]; exact f4
  · rw [L2, hcid]; exact f5
  · rw [hsay]; exact p1
  · rw [hsay]; exact p2
  · show s2.say.speechQueue.map Entry.cid = _
    rw [hsay, L2, hcid]; exact p3
  · rcases shape with ⟨a1, a2, a3, a4, a5, a6, a7, a8, a9⟩ |
      ⟨a1, a2, ⟨p, b1, b2, b3⟩, a4, a5⟩ | ⟨a1, a2, ⟨gid, b1, b2⟩, a4, a5, a6, a7⟩
    · exact Or.inl ⟨by rw [hsay]; exact a1, by rw [hsay]; exact a2, by rw [hfr]; exact a3,
        by rw [hsay]; exact a4, by rw [hsay]; exact a5, by rw [hsay]; exact a6,
        by rw [hlive]; exact a7, by rw [L1, hcid]; exact a8, by rw [L2, hcid]; exact a9⟩
    · exact Or.inr (Or.inl ⟨by rw [hsay]; exact a1, by rw [hsay]; exact a2,
        ⟨p, by rw [hfr, hsay, L1]; exact b1, by rw [hsay]; exact b2,
          by rw [hlive]; exact b3⟩,
        by rw [hsay]; exact a4, by rw [L1, L2]; exact a5⟩)
    · exact Or.inr (Or.inr ⟨by rw [hsay]; exact a1, by rw [hsay]; exact a2,
        ⟨gid, by rw [hfr, hsay]; exact b1, by rw [hsay]; exact b2⟩,
        by rw [hsay]; exact a4, by rw [hsay]; exact a5, by rw [hlive]; exact a6,
        by rw [L1, L2]; exact a7⟩)
theorem resolvedCids_one (e : Ev) (c : Nat) (h : e = Ev.resolve c) :
    resolvedCids [e] = [c] := by subst h; rfl

theorem launch_plain (gen cid : Nat) (orig tts : String) (w : Sys)
    (f1 : enqueuedCids w.log = List.range w.nextCid)
    (f2 : servicedCids w.log = List.range (servicedCids w.log).length)
    (f3 : resolvedCids w.log = List.range (resolvedCids w.log).length)
    (hcid : cid = (resolvedCids w.log).length)
    (hsr : (servicedCids w.log).length = (resolvedCids w.log).length + 1)
    (hserv : (servicedCids w.log).length ≤ w.nextCid)
    (hqr : queueCids w = List.range' (servicedCids w.log).length
      (w.nextCid - (servicedCids w.log).length))
    (hpend : w.say.pendingInterrupt = none)
    (hlat : w.say.latestEntry = none)
    (hpq : w.say.processingQueue = true)
    (hsp : w.say.speaking = true)
    (hgen : w.say.queueGeneration = gen)
    (hfr : w.frames = [])
    (hgr : w.say.gapResolver = none)
    (hlive : w.sayLive = []) :
    PlainInv (launchSay gen cid orig tts w) := by
  unfold launchSay
  dsimp only [pushLog]
  have hL : resolvedCids (w.log ++ [Ev.launch w.nextPid cid tts
      (calculateRate tts w.say.speechQueue)]) = resolvedCids w.log := by simp [resolvedCids]
  have hV : servicedCids (w.log ++ [Ev.launch w.nextPid cid tts
      (calculateRate tts w.say.speechQueue)]) = servicedCids w.log := by simp [servicedCids]
  have hQ : enqueuedCids (w.log ++ [Ev.launch w.nextPid cid tts
      (calculateRate tts w.say.speechQueue)]) = enqueuedCids w.log := by simp [enqueuedCids]
  refine ⟨⟨?_, ?_, ?_, ?_, ?_⟩, ?_, ?_, ?_, ?_⟩
  · rw [hQ]; exact f1
  · rw [hV]; exact f2
  · rw [hL]; exact f3
  · rw [hL, hV]; omega
  · rw [hV]; exact hserv
  · exact hpend
  · exact hlat
  · show w.say.speechQueue.map Entry.cid = _
    rw [hV]; exact hqr
  · refine Or.inr (Or.inl ⟨hpq, hsp, ⟨w.nextPid, ?_, rfl, ?_⟩, hgr, ?_⟩)
    · rw [hfr, hL, hgen, ← hcid]; rfl
    · rw [hlive]; rfl
    · rw [hV, hL]; exact hsr
theorem afterSpeak_plain (fuel gen cid : Nat) (w : Sys)
    (ihl : ∀ (s2 : Sys), DrainInv gen s2 → s2.say.speechQueue.length < fuel →
      PlainInv (runLoop fuel gen s2))
    (f1 : enqueuedCids w.log = List.range w.nextCid)
    (f2 : servicedCids w.log = List.range (servicedCids w.log).length)
    (f3 : resolvedCids w.log = List.range (resolvedCids w.log).length)
    (hcid : cid = (resolvedCids w.log).length)
    (hsr : (servicedCids w.log).length = (resolvedCids w.log).length + 1)
    (hserv : (servicedCids w.log).length ≤ w.nextCid)
    (hqr : queueCids w = List.range' (servicedCids w.log).length
      (w.nextCid - (servicedCids w.log).length))
    (hpend : w.say.pendingInterrupt = none)
    (hlat : w.say.latestEntry = none)
    (hpq : w.say.processingQueue = true)
    (hsp : w.say.speaking = true)
    (hgen : w.say.queueGeneration = gen)
    (hfr : w.frames = [])
    (hact : w.say.activeProcess = none)
    (hgr : w.say.gapResolver = none)
    (hlive : w.sayLive = [])
    (hflen : w.say.speechQueue.length < fuel) :
    PlainInv (runRes fuel gen (afterSpeakR gen cid w)) := by
  have hR : resolvedCids (w.log ++ [Ev.resolve cid]) = resolvedCids w.log ++ [cid] := by
    simp [resolvedCids]
  have hV : servicedCids (w.log ++ [Ev.resolve cid]) = servicedCids w.log := by
    simp [servicedCids]
  have hQ : enqueuedCids (w.log ++ [Ev.resolve cid]) = enqueuedCids w.log := by
    simp [enqueuedCids]
  have hf3' : resolvedCids (w.log ++ [Ev.resolve cid]) =
      List.range (resolvedCids (w.log ++ [Ev.resolve cid])).length := by
    rw [hR, hcid, f3]
    simp [← List.range_succ]
  have hDrain : DrainInv gen { w with log := w.log ++ [Ev.resolve cid] } := by
    refine ⟨⟨?_, ?_, ?_, ?_, ?_⟩, hpend, hlat, ?_, hpq, hsp, hgen, hfr, hact, hgr, hlive, ?_⟩
    · rw [hQ]; exact f1
    · rw [hV]; exact f2
    · exact hf3'
    · rw [hR, hV]; simp; omega
    · rw [hV]; exact hserv
    · show w.say.speechQueue.map Entry.cid = _
      rw [hV]; exact hqr
    · rw [hR, hV]; simp; omega
  unfold afterSpeakR
  dsimp only [pushLog]
  rw [if_neg (by simp [hgen])]
  split
  · split
    · show PlainInv (runLoop fuel gen _)
      exact ihl _ hDrain hflen
    · rename_i hne hgap
      dsimp only [runRes]
      obtain ⟨hsay2, hfr2, hlive2, hcid2, extra, hlog2, hr2, hv2, hq2⟩ :=
        sayAgrees_emitGapStart { w with log := w.log ++ [Ev.resolve cid] }
      have hR2 : resolvedCids (emitGapStart { w with log := w.log ++ [Ev.resolve cid] }).log =
          resolvedCids w.log ++ [cid] := by
        rw [hlog2]; dsimp only; rw [resolvedCids_append, hr2, List.append_nil, hR]
      have hV2 : servicedCids (emitGapStart { w with log := w.log ++ [Ev.resolve cid] }).log =
          servicedCids w.log := by
        rw [hlog2]; dsimp only; rw [servicedCids_append, hv2, List.append_nil, hV]
      have hQ2 : enqueuedCids (emitGapStart { w with log := w.log ++ [Ev.resolve cid] }).log =
          enqueuedCids w.log := by
        rw [hlog2]; dsimp only; rw [enqueuedCids_append, hq2, List.append_nil, hQ]
      have hsay2' : (emitGapStart { w with log := w.log ++ [Ev.resolve cid] }).say = w.say := by
        rw [hsay2]
      refine ⟨⟨?_, ?_, ?_, ?_, ?_⟩, ?_, ?_, ?_, ?_⟩
      · rw [hQ2, hcid2]; exact f1
      · rw [hV2]; exact f2
      · rw [hR2, hcid, f3]
        simp [← List.range_succ]
      · rw [hR2, hV2]; simp; omega
      · rw [hV2, hcid2]; exact hserv
      · rw [hsay2']; exact hpend
      · rw [hsay2']; exact hlat
      · show List.map Entry.cid _ = _
        rw [hsay2', hV2, hcid2]; exact hqr
      · refine Or.inr (Or.inr ⟨?_, ?_,
          ⟨(emitGapStart { w with log := w.log ++ [Ev.resolve cid] }).nextGid, ?_, rfl⟩,
          ?_, ?_, ?_, ?_⟩)
        · rw [hsay2']; exact hpq
        · rw [hsay2']; exact hsp
        · simp only [hfr2, hsay2', hgen]
          rw [hfr]
          exact List.nil_append _
        · rw [hsay2']
          intro hnil
          rw [hnil] at hne
          simp [hpend] at hne
        · rw [hsay2']; exact hact
        · rw [hlive2]
          dsimp only
          exact hlive
        · rw [hR2, hV2]; simp; omega
  · show PlainInv (runLoop fuel gen _)
    exact ihl _ hDrain hflen
theorem speakStep_plain (fuel gen cid : Nat) (tx : String) (w : Sys)
    (ihl : ∀ (s2 : Sys), DrainInv gen s2 → s2.say.speechQueue.length < fuel →
      PlainInv (runLoop fuel gen s2))
    (f1 : enqueuedCids w.log = List.range w.nextCid)
    (f2 : servicedCids w.log = List.range (servicedCids w.log).length)
    (f3 : resolvedCids w.log = List.range (resolvedCids w.log).length)
    (hcid : cid = (servicedCids w.log).length)
    (hrs : (resolvedCids w.log).length = (servicedCids w.log).length)
    (hlt : (servicedCids w.log).length < w.nextCid)
    (hqr : queueCids w = List.range' ((servicedCids w.log).length + 1)
      (w.nextCid - ((servicedCids w.log).length + 1)))
    (hpend : w.say.pendingInterrupt = none)
    (hlat : w.say.latestEntry = none)
    (hpq : w.say.processingQueue = true)
    (hsp : w.say.speaking = true)
    (hgen : w.say.queueGeneration = gen)
    (hfr : w.frames = [])
    (hact : w.say.activeProcess = none)
    (hgr : w.say.gapResolver = none)
    (hlive : w.sayLive = [])
    (hflen : w.say.speechQueue.length < fuel) :
    PlainInv (runRes fuel gen (speakStepR gen cid tx w)) := by
  have hV : servicedCids (w.log ++ [Ev.serviced cid tx]) = servicedCids w.log ++ [cid] := by
    simp [servicedCids]
  have hR : resolvedCids (w.log ++ [Ev.serviced cid tx]) = resolvedCids w.log := by
    simp [resolvedCids]
  have hQ : enqueuedCids (w.log ++ [Ev.serviced cid tx]) = enqueuedCids w.log := by
    simp [enqueuedCids]
  have hf2' : servicedCids (w.log ++ [Ev.serviced cid tx]) =
      List.range (servicedCids (w.log ++ [Ev.serviced cid tx])).length := by
    rw [hV, hcid, f2]
    simp [← List.range_succ]
  have hL : ∀ tts : String,
      PlainInv (launchSay gen cid tx tts { w with log := w.log ++ [Ev.serviced cid tx] }) := by
    intro tts
    refine launch_plain gen cid tx tts _ ?_ ?_ ?_ ?_ ?_ ?_ ?_ hpend hlat hpq hsp hgen hfr
      hgr hlive
    · show enqueuedCids (w.log ++ [Ev.serviced cid tx]) = List.range w.nextCid
      rw [hQ]; exact f1
    · exact hf2'
    · show resolvedCids (w.log ++ [Ev.serviced cid tx]) = _
      rw [hR]; exact f3
    · show cid = (resolvedCids (w.log ++ [Ev.serviced cid tx])).length
      rw [hR]; omega
    · show (servicedCids (w.log ++ [Ev.serviced cid tx])).length =
        (resolvedCids (w.log ++ [Ev.serviced cid tx])).length + 1
      rw [hR, hV]; simp; omega
    · show (servicedCids (w.log ++ [Ev.serviced cid tx])).length ≤ w.nextCid
      rw [hV]; simp; omega
    · show List.map Entry.cid w.say.speechQueue = List.range'
        (servicedCids (w.log ++ [Ev.serviced cid tx])).length
        (w.nextCid - (servicedCids (w.log ++ [Ev.serviced cid tx])).length)
      rw [hV]
      simp only [List.length_append, List.length_cons, List.length_nil, Nat.add_zero]
      exact hqr
  unfold speakStepR
  dsimp only [pushLog]
  split
  · split
    · refine afterSpeak_plain fuel gen cid _ ihl ?_ ?_ ?_ ?_ ?_ ?_ ?_ hpend hlat hpq hsp
        hgen hfr hact hgr hlive hflen
      · show enqueuedCids (w.log ++ [Ev.serviced cid tx]) = List.range w.nextCid
        rw [hQ]; exact f1
      · exact hf2'
      · show resolvedCids (w.log ++ [Ev.serviced cid tx]) = _
        rw [hR]; exact f3
      · show cid = (resolvedCids (w.log ++ [Ev.serviced cid tx])).length
        rw [hR]; omega
      · show (servicedCids (w.log ++ [Ev.serviced cid tx])).length =
          (resolvedCids (w.log ++ [Ev.serviced cid tx])).length + 1
        rw [hR, hV]; simp; omega
      · show (servicedCids (w.log ++ [Ev.serviced cid tx])).length ≤ w.nextCid
        rw [hV]; simp; omega
      · show List.map Entry.cid w.say.speechQueue = List.range'
          (servicedCids (w.log ++ [Ev.serviced cid tx])).length
          (w.nextCid - (servicedCids (w.log ++ [Ev.serviced cid tx])).length)
        rw [hV]
        simp only [List.length_append, List.length_cons, List.length_nil, Nat.add_zero]
        exact hqr
    · dsimp only [runRes]
      exact hL _
  · dsimp only [runRes]
    exact hL _
theorem runLoop_plain : ∀ (fuel gen : Nat) (s : Sys), DrainInv gen s →
    s.say.speechQueue.length < fuel → PlainInv (runLoop fuel gen s) := by
  intro fuel
  induction fuel with
  | zero =>
    intro gen s _ hf
    exact absurd hf (Nat.not_lt_zero _)
  | succ fuel ih =>
    intro gen s hD hf
    obtain ⟨⟨f1, f2, f3, f4, f5⟩, hpend, hlat, hqr, hpq, hsp, hgen, hfr, hact, hgr, hlive,
      hrs⟩ := hD
    simp only [runLoop]
    cases hq : s.say.speechQueue with
    | nil =>
      rw [if_pos (by simp [hq, hpend])]
      unfold finishUp
      rw [if_pos (by simp [hgen])]
      refine PlainInv_transfer (sayAgrees_emitFinish _) ?_
      have h0 : s.nextCid - (servicedCids s.log).length = 0 := by
        have h0' : List.range' (servicedCids s.log).length
            (s.nextCid - (servicedCids s.log).length) = [] := by
          rw [← hqr]
          show List.map Entry.cid s.say.speechQueue = []
          rw [hq]
          rfl
        exact List.range'_eq_nil.mp h0'
      refine ⟨⟨f1, f2, f3, f4, f5⟩, hpend, hlat, hqr,
        Or.inl ⟨rfl, rfl, hfr, hq, hact, hgr, hlive, ?_, ?_⟩⟩
      · show (resolvedCids s.log).length = s.nextCid
        omega
      · show (servicedCids s.log).length = s.nextCid
        omega
    | cons e rest =>
      rw [if_neg (by simp [hq])]
      rw [if_neg (by simp [hgen])]
      split
      · rename_i pi hpi
        rw [hpend] at hpi
        cases hpi
      · split
        · rename_i hq2
          exact absurd hq2 (List.cons_ne_nil _ _)
        · rename_i e2 rest2 hq2
          injection hq2 with he hrest
          subst he hrest
          show PlainInv (runRes fuel gen (speakStepR gen e.cid e.text _))
          have hqq : List.map Entry.cid (e :: rest) = List.range'
              (servicedCids s.log).length (s.nextCid - (servicedCids s.log).length) := by
            rw [← hq]; exact hqr
          cases hk : s.nextCid - (servicedCids s.log).length with
          | zero =>
            rw [hk] at hqq
            exact absurd hqq (by simp)
          | succ k =>
            rw [hk, List.range'_succ] at hqq
            simp only [List.map_cons] at hqq
            injection hqq with hecid hqrest
            refine speakStep_plain fuel gen e.cid e.text _ (ih gen) f1 f2 f3 hecid hrs
              (by show (servicedCids s.log).length < s.nextCid; omega) ?_ hpend ?_ hpq hsp
              hgen hfr hact hgr hlive ?_
            · show List.map Entry.cid rest = List.range' ((servicedCids s.log).length + 1)
                (s.nextCid - ((servicedCids s.log).length + 1))
              rw [hqrest]
              have hkk : s.nextCid - ((servicedCids s.log).length + 1) = k := by omega
              rw [hkk]
            · show (if s.say.latestEntry == some e.cid then none else s.say.latestEntry) = none
              rw [hlat]
              simp
            · show rest.length < fuel
              rw [hq] at hf
              simp only [List.length_cons] at hf
              omega
theorem emitGapEnd_view (x : Sys) :
    (emitGapEnd x).say = { x.say with gapResolver := none } ∧
    (emitGapEnd x).frames = x.frames ∧
    (emitGapEnd x).sayLive = x.sayLive ∧
    (emitGapEnd x).nextCid = x.nextCid ∧
    ∃ extra, (emitGapEnd x).log = x.log ++ extra ∧ resolvedCids extra = [] ∧
      servicedCids extra = [] ∧ enqueuedCids extra = [] := by
  unfold emitGapEnd
  dsimp only [pushLog]
  split
  · split
    · rename_i p hp
      refine ⟨rfl, rfl, rfl, rfl, [.gapEndEv, .hearKill p], ?_, rfl, rfl, rfl⟩
      rw [List.append_assoc]
      rfl
    · exact ⟨rfl, rfl, rfl, rfl, [.gapEndEv], rfl, rfl, rfl, rfl⟩
  · exact ⟨rfl, rfl, rfl, rfl, [.gapEndEv], rfl, rfl, rfl, rfl⟩

theorem resume_hit_plain (gid : Nat) (w : Sys)
    (hfifo : FifoLog w)
    (hpend : w.say.pendingInterrupt = none)
    (hlat : w.say.latestEntry = none)
    (hqr : queueCids w = List.range' (servicedCids w.log).length
      (w.nextCid - (servicedCids w.log).length))
    (hpq : w.say.processingQueue = true)
    (hsp : w.say.speaking = true)
    (hfr : w.frames = [Frame.gap w.say.queueGeneration gid])
    (hact : w.say.activeProcess = none)
    (hlive : w.sayLive = [])
    (hrs : (servicedCids w.log).length = (resolvedCids w.log).length) :
    PlainInv (resumeGapRace gid w) := by
  have hfind : findGapFrame w.frames gid = some w.say.queueGeneration := by
    rw [hfr]
    simp [findGapFrame]
  unfold resumeGapRace
  rw [hfind]
  dsimp only
  obtain ⟨hsayV, hfrV, hliveV, hcidV, extra, hlogV, hrV, hvV, hqV⟩ :=
    emitGapEnd_view { w with frames := removeGapFrame w.frames gid }
  have hR2 : resolvedCids (emitGapEnd
      { w with frames := removeGapFrame w.frames gid }).log = resolvedCids w.log := by
    rw [hlogV]
    dsimp only
    rw [resolvedCids_append, hrV, List.append_nil]
  have hV2 : servicedCids (emitGapEnd
      { w with frames := removeGapFrame w.frames gid }).log = servicedCids w.log := by
    rw [hlogV]
    dsimp only
    rw [servicedCids_append, hvV, List.append_nil]
  have hQ2 : enqueuedCids (emitGapEnd
      { w with frames := removeGapFrame w.frames gid }).log = enqueuedCids w.log := by
    rw [hlogV]
    dsimp only
    rw [enqueuedCids_append, hqV, List.append_nil]
  have hsay2 : (emitGapEnd { w with frames := removeGapFrame w.frames gid }).say =
      { w.say with gapResolver := none } := by
    rw [hsayV]
  rw [if_pos (by rw [hsay2]; simp)]
  obtain ⟨f1, f2, f3, f4, f5⟩ := hfifo
  refine runLoop_plain _ _ _ ⟨⟨?_, ?_, ?_, ?_, ?_⟩, ?_, ?_, ?_, ?_, ?_, ?_, ?_, ?_, ?_,
    ?_, ?_⟩ ?_
  · rw [hQ2, hcidV]
    dsimp only
    exact f1
  · rw [hV2]; exact f2
  · rw [hR2]; exact f3
  · rw [hR2, hV2]; exact f4
  · rw [hV2, hcidV]
    dsimp only
    exact f5
  · rw [hsay2]; exact hpend
  · rw [hsay2]; exact hlat
  · show List.map Entry.cid _ = _
    rw [hsay2, hV2, hcidV]
    dsimp only
    exact hqr
  · rw [hsay2]; exact hpq
  · rw [hsay2]; exact hsp
  · rw [hsay2]
  · rw [hfrV]
    dsimp only
    rw [hfr]
    simp [removeGapFrame]
  · rw [hsay2]; exact hact
  · rw [hsay2]
  · rw [hliveV]
    dsimp only
    exact hlive
  · rw [hR2, hV2]; omega
  · show (emitGapEnd _).say.speechQueue.length < sayFuel _
    unfold sayFuel
    omega

theorem resume_miss_plain (gid : Nat) (w : Sys)
    (hmiss : findGapFrame w.frames gid = none) (h : PlainInv w) :
    PlainInv (resumeGapRace gid w) := by
  unfold resumeGapRace
  rw [hmiss]
  exact h
theorem PlainInv_signal (s : Sys) (h : PlainInv s) : PlainInv (signalGapSpeechComplete s) := by
  unfold signalGapSpeechComplete
  split
  · rename_i gid hgid
    obtain ⟨hfifo, hpend, hlat, hqr, shape⟩ := h
    rcases shape with ⟨a1, a2, a3, a4, a5, a6, a7, a8, a9⟩ |
      ⟨a1, a2, ⟨p, b1, b2, b3⟩, a4, a5⟩ | ⟨a1, a2, ⟨gid0, b1, b2⟩, a4, a5, a6, a7⟩
    · rw [a6] at hgid; cases hgid
    · rw [a4] at hgid; cases hgid
    · rw [b2] at hgid
      injection hgid with hgg
      subst hgg
      refine resume_hit_plain gid0 _ ⟨?_, ?_, ?_, ?_, ?_⟩ ?_ ?_ ?_ ?_ ?_ ?_ ?_ ?_ ?_
      · exact hfifo.1
      · exact hfifo.2.1
      · exact hfifo.2.2.1
      · exact hfifo.2.2.2.1
      · exact hfifo.2.2.2.2
      · exact hpend
      · exact hlat
      · show List.map Entry.cid _ = _
        exact hqr
      · exact a1
      · exact a2
      · exact b1
      · exact a5
      · exact a6
      · exact a7
  · exact h

theorem PlainInv_gapTimer (gid t : Nat) (s : Sys) (h : PlainInv s) :
    PlainInv (gapTimerStep gid t s) := by
  unfold gapTimerStep
  split
  · split
    · have h1 : PlainInv { s with gapTimers := s.gapTimers.filter (fun x => !(x.1 == gid)) } :=
        h
      cases hfg : findGapFrame s.frames gid with
      | none =>
        refine resume_miss_plain gid _ ?_ h1
        exact hfg
      | some g =>
        obtain ⟨hfifo, hpend, hlat, hqr, shape⟩ := h
        rcases shape with ⟨a1, a2, a3, a4, a5, a6, a7, a8, a9⟩ |
          ⟨a1, a2, ⟨p, b1, b2, b3⟩, a4, a5⟩ | ⟨a1, a2, ⟨gid0, b1, b2⟩, a4, a5, a6, a7⟩
        · rw [a3] at hfg; cases hfg
        · rw [b1] at hfg
          simp [findGapFrame] at hfg
        · rw [b1] at hfg
          by_cases hgg : gid0 = gid
        
          · subst hgg
            refine resume_hit_plain gid0 _ ⟨?_, ?_, ?_, ?_, ?_⟩ ?_ ?_ ?_ ?_ ?_ ?_ ?_ ?_ ?_
            · exact hfifo.1
            · exact hfifo.2.1
            · exact hfifo.2.2.1
            · exact hfifo.2.2.2.1
            · exact hfifo.2.2.2.2
            · exact hpend
            · exact hlat
            · show List.map Entry.cid _ = _
              exact hqr
            · exact a1
            · exact a2
            · exact b1
            · exact a5
            · exact a6
            · exact a7
          · simp [findGapFrame, hgg] at hfg
    · exact h
  · exact h
theorem PlainInv_onSilence (s : Sys) (h : PlainInv s) : PlainInv (onSilence s) := by
  unfold onSilence
  dsimp only
  repeat' split
  all_goals
    first
      | exact h
      | exact PlainInv_transfer (sayAgrees_of_eq rfl rfl rfl rfl rfl) h
      | exact PlainInv_transfer (sayAgrees_trans (sayAgrees_of_eq rfl rfl rfl rfl rfl)
          (sayAgrees_pushLog _ _ (by rfl) (by rfl) (by rfl))) h
      | exact PlainInv_transfer (sayAgrees_trans (sayAgrees_of_eq rfl rfl rfl rfl rfl)
          (sayAgrees_trans (sayAgrees_pushLog _ _ (by rfl) (by rfl) (by rfl))
            (sayAgrees_pushLog _ _ (by rfl) (by rfl) (by rfl)))) h
      | exact PlainInv_signal _ (PlainInv_transfer
          (sayAgrees_trans (sayAgrees_of_eq rfl rfl rfl rfl rfl)
            (sayAgrees_pushLog _ _ (by rfl) (by rfl) (by rfl))) h)
      | exact PlainInv_signal _ (PlainInv_transfer
          (sayAgrees_trans (sayAgrees_of_eq rfl rfl rfl rfl rfl)
            (sayAgrees_trans (sayAgrees_pushLog _ _ (by rfl) (by rfl) (by rfl))
              (sayAgrees_pushLog _ _ (by rfl) (by rfl) (by rfl)))) h)

theorem PlainInv_silenceFire (t : Nat) (s : Sys) (h : PlainInv s) :
    PlainInv (silenceFireStep t s) := by
  unfold silenceFireStep
  split
  · exact PlainInv_onSilence _ (PlainInv_transfer (sayAgrees_of_eq rfl rfl rfl rfl rfl) h)
  · exact h
theorem PlainInv_sayExit (pid : Nat) (s : Sys) (h : PlainInv s) :
    PlainInv (sayExitStep pid s) := by
  unfold sayExitStep
  split
  · rename_i hcont
    obtain ⟨⟨f1, f2, f3, f4, f5⟩, hpend, hlat, hqr, shape⟩ := h
    rcases shape with ⟨a1, a2, a3, a4, a5, a6, a7, a8, a9⟩ |
      ⟨a1, a2, ⟨p, b1, b2, b3⟩, a4, a5⟩ | ⟨a1, a2, ⟨gid0, b1, b2⟩, a4, a5, a6, a7⟩
    · rw [a7] at hcont
      simp at hcont
    · rw [b3] at hcont
      have hpp : pid = p := by simpa using hcont
      subst hpp
      dsimp only
      rw [if_pos (by simp [b2])]
      have hfind : findSpeakFrame s.frames pid =
          some (s.say.queueGeneration, (resolvedCids s.log).length) := by
        rw [b1]
        simp [findSpeakFrame]
      rw [hfind]
      dsimp only
      refine afterSpeak_plain _ _ _ _ (fun s2 hD hl => runLoop_plain _ _ s2 hD hl)
        f1 f2 f3 rfl ?_ f5 ?_ hpend hlat a1 a2 rfl ?_ rfl a4 ?_ ?_
      · exact a5
      · show List.map Entry.cid _ = _
        exact hqr
      · show removeSpeakFrame s.frames pid = []
        rw [b1]
        simp [removeSpeakFrame]
      · show List.filter _ s.sayLive = []
        rw [b3]
        simp
      · show s.say.speechQueue.length < s.say.speechQueue.length + 2
        omega
    · rw [a6] at hcont
      simp at hcont
  · exact h
theorem range'_snoc (a n : Nat) : List.range' a n ++ [a + n] = List.range' a (n + 1) := by
  rw [List.range'_concat, one_mul]

theorem startDrain_plain (w : Sys)
    (f1 : enqueuedCids w.log = List.range w.nextCid)
    (f2 : servicedCids w.log = List.range (servicedCids w.log).length)
    (f3 : resolvedCids w.log = List.range (resolvedCids w.log).length)
    (f4 : (resolvedCids w.log).length ≤ (servicedCids w.log).length)
    (f5 : (servicedCids w.log).length ≤ w.nextCid)
    (hpend : w.say.pendingInterrupt = none)
    (hlat : w.say.latestEntry = none)
    (hqr : queueCids w = List.range' (servicedCids w.log).length
      (w.nextCid - (servicedCids w.log).length))
    (hpq : w.say.processingQueue = true)
    (hsp : w.say.speaking = true)
    (hfr : w.frames = [])
    (hact : w.say.activeProcess = none)
    (hgr : w.say.gapResolver = none)
    (hlive : w.sayLive = [])
    (hrs : (resolvedCids w.log).length = (servicedCids w.log).length) :
    PlainInv (runLoop (sayFuel (emitStart w)) w.say.queueGeneration (emitStart w)) := by
  obtain ⟨hsay2, hfr2, hlive2, hcid2, extra, hlog2, hr2, hv2, hq2⟩ := sayAgrees_emitStart w
  have hR3 : resolvedCids (emitStart w).log = resolvedCids w.log := by
    rw [hlog2, resolvedCids_append, hr2, List.append_nil]
  have hV3 : servicedCids (emitStart w).log = servicedCids w.log := by
    rw [hlog2, servicedCids_append, hv2, List.append_nil]
  have hQ3 : enqueuedCids (emitStart w).log = enqueuedCids w.log := by
    rw [hlog2, enqueuedCids_append, hq2, List.append_nil]
  refine runLoop_plain _ _ _ ⟨⟨?_, ?_, ?_, ?_, ?_⟩, ?_, ?_, ?_, ?_, ?_, ?_, ?_, ?_, ?_,
    ?_, ?_⟩ ?_
  · rw [hQ3, hcid2]; exact f1
  · rw [hV3]; exact f2
  · rw [hR3]; exact f3
  · rw [hR3, hV3]; exact f4
  · rw [hV3, hcid2]; exact f5
  · rw [hsay2]; exact hpend
  · rw [hsay2]; exact hlat
  · show List.map Entry.cid _ = _
    rw [hsay2, hV3, hcid2]
    exact hqr
  · rw [hsay2]; exact hpq
  · rw [hsay2]; exact hsp
  · rw [hsay2]
  · rw [hfr2]; exact hfr
  · rw [hsay2]; exact hact
  · rw [hsay2]; exact hgr
  · rw [hlive2]; exact hlive
  · rw [hR3, hV3]; exact hrs
  · show (emitStart w).say.speechQueue.length < sayFuel (emitStart w)
    unfold sayFuel
    omega

theorem PlainInv_sayText_plain (tx : String) (s : Sys) (h : PlainInv s) :
    PlainInv (sayText s tx ⟨false, false, false, false⟩) := by
  unfold sayText
  rw [if_neg (by simp), if_neg (by simp)]
  dsimp only [pushLog]
  obtain ⟨⟨f1, f2, f3, f4, f5⟩, hpend, hlat, hqr, shape⟩ := h
  have hQ : enqueuedCids (s.log ++ [Ev.enq s.nextCid tx]) =
      enqueuedCids s.log ++ [s.nextCid] := by simp [enqueuedCids]
  have hV : servicedCids (s.log ++ [Ev.enq s.nextCid tx]) = servicedCids s.log := by
    simp [servicedCids]
  have hR : resolvedCids (s.log ++ [Ev.enq s.nextCid tx]) = resolvedCids s.log := by
    simp [resolvedCids]
  have hQ2 : enqueuedCids (s.log ++ [Ev.enq s.nextCid tx]) = List.range (s.nextCid + 1) := by
    rw [hQ, f1]
    exact (List.range_succ s.nextCid).symm
  have hqr2 : List.map Entry.cid (s.say.speechQueue ++ [⟨s.nextCid, tx⟩]) =
      List.range' (servicedCids s.log).length
        (s.nextCid + 1 - (servicedCids s.log).length) := by
    rw [List.map_append]
    show queueCids s ++ [s.nextCid] = _
    rw [hqr]
    have hx : s.nextCid = (servicedCids s.log).length +
        (s.nextCid - (servicedCids s.log).length) := by omega
    have hy : s.nextCid + 1 - (servicedCids s.log).length =
        (s.nextCid - (servicedCids s.log).length) + 1 := by omega
    rw [hy]
    rw [← range'_snoc]
    rw [← hx]
  rcases shape with ⟨a1, a2, a3, a4, a5, a6, a7, a8, a9⟩ |
    ⟨a1, a2, ⟨p, b1, b2, b3⟩, a4, a5⟩ | ⟨a1, a2, ⟨gid0, b1, b2⟩, a4, a5, a6, a7⟩
  · unfold processQueue
    rw [if_neg (by show ¬({ s.say with speechQueue := _ }.processingQueue = true) ; simp [a1])]
    dsimp only
    refine startDrain_plain _ ?_ ?_ ?_ ?_ ?_ ?_ ?_ ?_ ?_ ?_ ?_ ?_ ?_ ?_ ?_
    · exact hQ2
    · show servicedCids (s.log ++ [Ev.enq s.nextCid tx]) = _
      rw [hV]; exact f2
    · show resolvedCids (s.log ++ [Ev.enq s.nextCid tx]) = _
      rw [hR]; exact f3
    · show (resolvedCids (s.log ++ [Ev.enq s.nextCid tx])).length ≤
        (servicedCids (s.log ++ [Ev.enq s.nextCid tx])).length
      rw [hR, hV]; exact f4
    · show (servicedCids (s.log ++ [Ev.enq s.nextCid tx])).length ≤ s.nextCid + 1
      rw [hV]; omega
    · exact hpend
    · exact hlat
    · show List.map Entry.cid (s.say.speechQueue ++ [⟨s.nextCid, tx⟩]) = _
      rw [hV]
      exact hqr2
    · rfl
    · rfl
    · exact a3
    · exact a5
    · exact a6
    · exact a7
    · show (resolvedCids (s.log ++ [Ev.enq s.nextCid tx])).length =
        (servicedCids (s.log ++ [Ev.enq s.nextCid tx])).length
      rw [hR, hV]; omega
  · unfold processQueue
    rw [if_pos (by show ({ s.say with speechQueue := _ }.processingQueue = true) ; exact a1)]
    refine ⟨⟨?_, ?_, ?_, ?_, ?_⟩, hpend, hlat, ?_,
      Or.inr (Or.inl ⟨a1, a2, ⟨p, ?_, b2, b3⟩, a4, ?_⟩)⟩
    · exact hQ2
    · rw [hV]; exact f2
    · rw [hR]; exact f3
    · rw [hR, hV]; exact f4
    · show (servicedCids (s.log ++ [Ev.enq s.nextCid tx])).length ≤ s.nextCid + 1
      rw [hV]; omega
    · show List.map Entry.cid _ = _
      rw [hV]
      exact hqr2
    · rw [hR]
      exact b1
    · rw [hV, hR]; exact a5
  · unfold processQueue
    rw [if_pos (by show ({ s.say with speechQueue := _ }.processingQueue = true) ; exact a1)]
    refine ⟨⟨?_, ?_, ?_, ?_, ?_⟩, hpend, hlat, ?_,
      Or.inr (Or.inr ⟨a1, a2, ⟨gid0, b1, b2⟩, ?_, a5, a6, ?_⟩)⟩
    · exact hQ2
    · rw [hV]; exact f2
    · rw [hR]; exact f3
    · rw [hR, hV]; exact f4
    · show (servicedCids (s.log ++ [Ev.enq s.nextCid tx])).length ≤ s.nextCid + 1
      rw [hV]; omega
    · show List.map Entry.cid _ = _
      rw [hV]
      exact hqr2
    · simp
    · rw [hV, hR]; exact a7
theorem PlainInv_step (s : Sys) (t : Nat) (a : Act) (ha : actTextNoOpts a = true)
    (h : PlainInv s) : PlainInv (step s t a) := by
  have h0 : PlainInv { s with time := t } := h
  cases a with
  | sayCall txt o =>
    cases txt with
    | none => simp [actTextNoOpts] at ha
    | some tx =>
      obtain ⟨i, c, r, l⟩ := o
      simp [actTextNoOpts] at ha
      obtain ⟨⟨⟨hi, hc⟩, hr⟩, hl⟩ := ha
      subst hi hc hr hl
      unfold step
      dsimp only
      split
      · exact h0
      · have hheal : healSay { s with time := t } = { s with time := t } := by
          unfold healSay
          rw [if_neg]
          intro hcond
          simp only [Bool.and_eq_true] at hcond
          obtain ⟨⟨⟨hb1, hb2⟩, hb3⟩, hb4⟩ := hcond
          obtain ⟨_, _, _, _, shape⟩ := h
          rcases shape with ⟨a1, _⟩ | ⟨_, _, ⟨p, _, b2, _⟩, _, _⟩ |
            ⟨_, _, _, a4, _⟩
          · rw [a1] at hb1
            cases hb1
          · rw [b2] at hb4
            simp at hb4
          · exact a4 (List.isEmpty_iff.mp hb2)
        rw [hheal]
        exact PlainInv_sayText_plain tx _ h0
  | sayExit pid => exact PlainInv_sayExit pid _ h0
  | gapTimerFire gid => exact PlainInv_gapTimer gid t _ h0
  | signalComplete => exact PlainInv_signal _ h0
  | hearCall ms => exact PlainInv_transfer (sayAgrees_hearCallStep ms _) h0
  | hearStop => exact PlainInv_transfer (sayAgrees_hearStopStep _) h0
  | hearLine pid line => exact PlainInv_transfer (sayAgrees_hearLineStep pid line _) h0
  | hearExit pid => exact PlainInv_transfer (sayAgrees_hearExitStep pid _) h0
  | silenceFire => exact PlainInv_silenceFire t _ h0
  | setMute b => exact h0
  | setGapDuration ms => exact h0
  | setRepeatReduction b => exact h0

theorem PlainInv_runFrom (tr : List (Nat × Act)) : ∀ (s : Sys), PlainInv s →
    traceAll actTextNoOpts tr = true → PlainInv (runFrom s tr) := by
  induction tr with
  | nil => intro s h _; exact h
  | cons ta tr ih =>
    intro s h htr
    simp only [traceAll, List.all_cons, Bool.and_eq_true] at htr
    exact ih _ (PlainInv_step s ta.1 ta.2 htr.1 h) htr.2

theorem PlainInv_initSys : PlainInv initSys := by
  refine ⟨⟨rfl, rfl, rfl, ?_, ?_⟩, rfl, rfl, rfl,
    Or.inl ⟨rfl, rfl, rfl, rfl, rfl, rfl, rfl, rfl, rfl⟩⟩
  · exact Nat.le_refl 0
  · exact Nat.le_refl 0
/-- C1 (amended): restricted to say calls passing a text and no options at
all, the engine is FIFO: the enqueued completion ids number the calls in
order, utterances are serviced in exactly that order, completions resolve
in exactly that order, and a completion only resolves once every
earlier-enqueued utterance has been serviced. -/
theorem c1_fifo_plain_order (tr : List (Nat × Act))
    (htr : traceAll actTextNoOpts tr = true) :
    FifoLog (runTrace tr) ∧
    ∀ c, c ∈ resolvedCids (runTrace tr).log → ∀ c2, c2 ≤ c →
      c2 ∈ servicedCids (runTrace tr).log := by
  have h : PlainInv (runTrace tr) := PlainInv_runFrom tr initSys PlainInv_initSys htr
  obtain ⟨hfifo, _⟩ := h
  refine ⟨hfifo, ?_⟩
  intro c hc c2 hc2
  obtain ⟨f1, f2, f3, f4, f5⟩ := hfifo
  rw [f3, List.mem_range] at hc
  rw [f2, List.mem_range]
  omega

/-- Witness for the amended C1 on a concrete option-free trace. -/
theorem c1_fifo_plain_order_witness :
    traceAll actTextNoOpts [(0, Act.sayCall (some "hi") ⟨false, false, false, false⟩),
      (1, Act.sayExit 0)] = true ∧
    FifoLog (runTrace [(0, Act.sayCall (some "hi") ⟨false, false, false, false⟩),
      (1, Act.sayExit 0)]) :=
  ⟨rfl, (c1_fifo_plain_order [(0, Act.sayCall (some "hi") ⟨false, false, false, false⟩),
      (1, Act.sayExit 0)] rfl).1⟩
